import Mathlib

/-!
Shallow embedding of the grading/scoring engine of
`3.ScoringAndDBOps/utility/extract_pdf_data.py` (functions `fetch_data`,
`fetch_data_round`, `check_symbol`, `check_fluorescence`, `check_polish`,
`check_symmetry`, `check_cut_grade`, `check_culet`, `assign_girdle_value`,
`assign_girdle_value_for_heart`, `assign_measurement_value`,
`get_pavillion_angle`, `get_round_crown`, `dict_np`).

Python dictionaries holding one certificate record are modelled as a fixed
structure whose fields record three possible dictionary states (key absent,
key present with value `None`, key present with a string).  Python floats are
modelled as rationals; uncaught Python exceptions are modelled with `Except`.
The two JSON configuration documents (shape requirements and characteristic
tables), which are data files outside the sources, are parameters of every
function, exactly as the Python code treats the loaded `data` and
`characteristic_data` globals.
-/

namespace YDG

/-- Kinds of Python exceptions the engine can raise (uncaught). -/
inductive PyError where
  | typeError
  | valueError
  | indexError
  | keyError
  | attributeError
  | nameError
  | zeroDivisionError
deriving DecidableEq, Repr

/-- Decidable equality of `Except` results, so that concrete engine outputs
can be compared by evaluation. -/
instance {ε α : Type} [DecidableEq ε] [DecidableEq α] : DecidableEq (Except ε α)
  | .error e, .error f =>
    if h : e = f then .isTrue (h ▸ rfl)
    else .isFalse (fun hh => h (Except.error.inj hh))
  | .error _, .ok _ => .isFalse (fun hh => Except.noConfusion hh)
  | .ok _, .error _ => .isFalse (fun hh => Except.noConfusion hh)
  | .ok a, .ok b =>
    if h : a = b then .isTrue (h ▸ rfl)
    else .isFalse (fun hh => h (Except.ok.inj hh))

/-- State of one key of a Python dict: key absent, key present with `None`,
or key present with a string value. -/
inductive Fld where
  | absent
  | null
  | str (s : String)
deriving DecidableEq, Repr

/-- Python `k in d`. -/
def Fld.isPresent : Fld → Bool
  | .absent => false
  | _ => true

/-- Python `d[k]` for a key holding `None` or a string: `KeyError` when the
key is absent, otherwise the optional string (`none` = Python `None`). -/
def fldGet : Fld → Except PyError (Option String)
  | .absent => .error .keyError
  | .null => .ok none
  | .str s => .ok (some s)

/-- Substring test on character lists (Python `needle in hay`). -/
def listInfix (needle : List Char) : List Char → Bool
  | [] => needle.isEmpty
  | c :: rest => needle.isPrefixOf (c :: rest) || listInfix needle rest

/-- Python `needle in hay` for strings. -/
def pyIn (needle hay : String) : Bool := listInfix needle.data hay.data

/-- ASCII lowercase of one character (Python `str.lower`; certificate data
is ASCII). -/
def lowChar (c : Char) : Char :=
  if 65 ≤ c.toNat && c.toNat ≤ 90 then Char.ofNat (c.toNat + 32) else c

/-- ASCII uppercase of one character (Python `str.upper`). -/
def upChar (c : Char) : Char :=
  if 97 ≤ c.toNat && c.toNat ≤ 122 then Char.ofNat (c.toNat - 32) else c

/-- Python `s.lower()`. -/
def pyLower (s : String) : String := String.mk (s.data.map lowChar)

/-- Python `s.upper()`. -/
def pyUpper (s : String) : String := String.mk (s.data.map upChar)

/-- Python `s.strip()`. -/
def pyStrip (s : String) : String :=
  String.mk
    (((s.data.dropWhile Char.isWhitespace).reverse.dropWhile
      Char.isWhitespace).reverse)

/-- Worker for `pySplit`: split at each non-overlapping occurrence of the
(nonempty) separator, scanning left to right; the fuel only serves
termination and is never exhausted when it starts at the list length. -/
def splitOnCore (sep : List Char) : ℕ → List Char → List Char → List (List Char)
  | 0, acc, _ => [acc.reverse]
  | _ + 1, acc, [] => [acc.reverse]
  | fuel + 1, acc, c :: rest =>
    if sep.isPrefixOf (c :: rest) then
      acc.reverse :: splitOnCore sep fuel [] ((c :: rest).drop sep.length)
    else splitOnCore sep fuel (c :: acc) rest

/-- Python `s.split(sep)` for a nonempty separator (keeps empty pieces). -/
def pySplit (s sep : String) : List String :=
  (splitOnCore sep.data (s.data.length + 1) [] s.data).map String.mk

/-- Worker for `pyReplace` (nonempty pattern, non-overlapping, left to
right). -/
def replaceCore (old new : List Char) : ℕ → List Char → List Char
  | 0, l => l
  | _ + 1, [] => []
  | fuel + 1, c :: rest =>
    if old.isPrefixOf (c :: rest) then
      new ++ replaceCore old new fuel ((c :: rest).drop old.length)
    else c :: replaceCore old new fuel rest

/-- Python `s.replace(old, new)`. -/
def pyReplace (s old new : String) : String :=
  String.mk (replaceCore old.data new.data (s.data.length + 1) s.data)

/-- Worker for `pySplitWs`: split on whitespace runs, dropping empties. -/
def wsSplitCore : ℕ → List Char → List (List Char)
  | 0, _ => []
  | _ + 1, [] => []
  | fuel + 1, c :: rest =>
    if c.isWhitespace then wsSplitCore fuel rest
    else
      ((c :: rest).takeWhile (fun x => !x.isWhitespace)) ::
        wsSplitCore fuel ((c :: rest).dropWhile (fun x => !x.isWhitespace))

/-- Python `s.split()` : split on whitespace runs, dropping empty pieces. -/
def pySplitWs (s : String) : List String :=
  (wsSplitCore (s.data.length + 1) s.data).map String.mk

/-- Python `s.rstrip()`. -/
def pyRstrip (s : String) : String :=
  String.mk ((s.data.reverse.dropWhile Char.isWhitespace).reverse)

/-- Numeric value of a list of decimal digit characters. -/
def digitsToNat (l : List Char) : ℕ :=
  l.foldl (fun n c => 10 * n + (c.toNat - ('0').toNat)) 0

/-- Rational value of an integer digit part and a fraction digit part. -/
def ratOfParts (ip fp : List Char) : ℚ :=
  (digitsToNat ip : ℚ) + (digitsToNat fp : ℚ) / ((10 : ℚ) ^ fp.length)

/-- Python `float(s)` restricted to plain decimal literals
(optional sign, digits, optional fraction part; exponent forms and the
special values accepted by Python do not occur in certificate data and are
modelled as failures).  `none` models a raised `ValueError`. -/
def pyFloat (s : String) : Option ℚ :=
  let t := (pyStrip s).data
  let sgn : ℚ := match t with
    | '-' :: _ => -1
    | _ => 1
  let t := match t with
    | '-' :: r => r
    | '+' :: r => r
    | r => r
  let ip := t.takeWhile Char.isDigit
  let rest := t.dropWhile Char.isDigit
  match rest with
  | [] => if ip.isEmpty then none else some (sgn * (digitsToNat ip : ℚ))
  | '.' :: r2 =>
    let fp := r2.takeWhile Char.isDigit
    let rest2 := r2.dropWhile Char.isDigit
    if rest2.isEmpty then
      if ip.isEmpty && fp.isEmpty then none else some (sgn * ratOfParts ip fp)
    else none
  | _ => none

/-- First match of the regex `\d+[,.]?\d+` (the module-level `pattern_digi`)
in a character list, returned as (integer digits, fraction digits); `none`
when `re.findall` finds nothing (so that `[0]` raises `IndexError`).
The fuel argument only serves termination: every recursive call consumes at
least one character, so fuel `l.length` is never exhausted. -/
def findDigiAux : ℕ → List Char → Option (List Char × List Char)
  | 0, _ => none
  | _, [] => none
  | fuel + 1, c :: cs =>
    if c.isDigit then
      let r1 := (c :: cs).takeWhile Char.isDigit
      let rest1 := (c :: cs).dropWhile Char.isDigit
      match rest1 with
      | sep :: rest2 =>
        if (sep = ',' || sep = '.') && (rest2.headD ' ').isDigit then
          some (r1, rest2.takeWhile Char.isDigit)
        else if 2 ≤ r1.length then some (r1, [])
        else findDigiAux fuel rest1
      | [] => if 2 ≤ r1.length then some (r1, []) else none
    else findDigiAux fuel cs

/-- Python `float(re.findall(pattern_digi, s)[0].replace(',', '.'))`:
`none` models the uncaught `IndexError` when the pattern finds no match
(note the pattern needs two digit characters, so even `"5"` fails). -/
def findDigi (s : String) : Option ℚ :=
  (findDigiAux s.data.length s.data).map (fun p => ratOfParts p.1 p.2)

/-- Round-half-to-even of a rational to an integer
(`decimal.Decimal.quantize` / Python `round` use banker's rounding; the
binary-float representation error of CPython floats is abstracted away). -/
def rne (x : ℚ) : ℤ :=
  let f := ⌊x⌋
  let r := x - (f : ℚ)
  if r < 1 / 2 then f
  else if 1 / 2 < r then f + 1
  else if f % 2 = 0 then f else f + 1

/-- Round-half-to-even to two decimal places. -/
def roundHalfEven2 (x : ℚ) : ℚ := ((rne (100 * x) : ℚ)) / 100

/-- Rendering of `f-string of round(x, 2)` for a nonnegative value: CPython
prints the shortest decimal form, so a whole number renders as `"100.0"`,
one fractional digit as `"12.5"`, two as `"84.62"`. -/
def renderRound2 (x : ℚ) : String :=
  let n := rne (100 * x)
  if n % 100 = 0 then toString (n / 100) ++ ".0"
  else if n % 10 = 0 then toString (n / 100) ++ "." ++ toString (n % 100 / 10)
  else if n % 100 < 10 then toString (n / 100) ++ ".0" ++ toString (n % 100)
  else toString (n / 100) ++ "." ++ toString (n % 100)

/-! ## Configuration tables

`diamonds_type_config.json` is a list of `{Diamond_type, Diamonds_req}`
objects; `config.json` is a list of named characteristic tables.  Both are
data files loaded at import time; the engine reads them through the globals
`data` and `characteristic_data`, modelled here as parameters.  A missing
sub-key of a `Diamonds_req` object is `none` (reading it raises `KeyError`,
which some call sites catch). -/

/-- One `Diamonds_req` object of `diamonds_type_config.json`. -/
structure DiamondsReq where
  length_width_ratio : Option String
  table : Option String
  depth : Option String
  pavilion_angle : Option String
  pavilion_depth : Option String
  crown_angle : Option String
deriving DecidableEq, Repr

/-- One entry of `diamonds_type_config.json`. -/
structure DiamondEntry where
  diamondType : String
  req : DiamondsReq
deriving DecidableEq, Repr

/-- A `{name, value}` pair of a flat characteristic table. -/
structure NameVal where
  name : String
  value : ℚ
deriving DecidableEq, Repr

/-- Row of the `ROUND SCORE` table: a grade word plus the position-indexed
`type_configuration` sub-scores (`check_polish` reads index 1,
`check_symmetry` index 2, `check_cut_grade` index 1). -/
structure RSRow where
  data_type : String
  tcValues : List ℚ
deriving DecidableEq, Repr

/-- Row of the `FLUORESCENCE` table: a color grade letter plus named
sub-scores. -/
structure FluorRow where
  data_type : String
  tcfg : List NameVal
deriving DecidableEq, Repr

/-- Row of the `KEYS TO SYMBOLS` table: an inclusion name plus the
`type_configuration` whose index 0 holds the score. -/
structure SymRow where
  data_type : String
  tcValues : List ℚ
deriving DecidableEq, Repr

/-- Row of the `culet` table: a shape word plus named sub-scores. -/
structure CuletShape where
  shape : String
  value : List NameVal
deriving DecidableEq, Repr

/-- Row of the `measurement` table: a `"min-max"` carat range plus the
minimum diameter for that bucket. -/
structure WeightRow where
  weight : String
  value : ℚ
deriving DecidableEq, Repr

/-- The characteristic tables of `config.json` that the engine reads
(`pavAngleCurve` is the `pavillion_angle` range-keyed map,
`roundCrownCurve` the `round_crown` one). -/
structure Config where
  fluorescence : List FluorRow
  girdleThickness : List NameVal
  girdleThicknessHeart : List NameVal
  roundScore : List RSRow
  keysToSymbols : List SymRow
  culet : List CuletShape
  measurement : List WeightRow
  pavAngleCurve : List (String × ℚ)
  roundCrownCurve : List (String × ℚ)
deriving DecidableEq, Repr

/-! ## Certificate records -/

/-- One certificate record (`pdf_dc`): the per-gem dict the engine reads and
mutates.  Only the keys the engine touches are modelled.  The extra
rational field mirrors the engine writing the Python float
`pdf_dc['length_width_ratio']` at line 769. -/
structure RawRec where
  shape : Fld
  carat : Fld
  color_grade : Fld
  cut : Fld
  polish : Fld
  symmetry : Fld
  fluorescence : Fld
  girdle : Fld
  culet : Fld
  measurement : Fld
  table_size : Fld
  depth : Fld
  crown_angle : Fld
  crown_height : Fld
  pavilion_angle : Fld
  pavilion_height : Fld
  star_length : Fld
  lower_half_length : Fld
  key_to_symbol : Fld
  lwrStored : Option ℚ := none
deriving DecidableEq, Repr

/-- The affiliate override dict (`affiliate_process_data`).  The merge code
indexes exactly these keys unconditionally, so each is modelled as present,
holding `None` or a string.  (It has no `girdle` key: `fetch_data_round`
line 1149 reads `affiliate_process_data['girdle']`, which would raise
`KeyError`; that line is unreachable after the merge has run.) -/
structure AffRec where
  shape : Option String
  carat : Option String
  table_size : Option String
  griddle : Option String
  depth : Option String
  measurement : Option String
  culet : Option String
  color : Option String
  polish : Option String
  symmetry : Option String
  fluorescence : Option String
  cut : Option String
  pavilion_height : Option String
  pavilion_angle : Option String
  crown_height : Option String
  crown_angle : Option String
  color_grade : Option String
deriving DecidableEq, Repr

/-! ## Characteristic checkers -/

/-- Model of `check_fluorescence` (lines 143-164): pick `data_f`, find the first
`FLUORESCENCE` row whose color letter equals the rstripped color grade, and
look the description up among its named sub-scores; `none` models the
Python `None` returned on any miss (callers map it to score 0). -/
def check_fluorescence (flourValue : String) (cfg : Config) (colorGrade : String) : Option ℚ :=
  let parts := pySplitWs flourValue
  let dataF :=
    if parts.length = 2 && pyLower (parts.headD "") ≠ "very" then flourValue
    else if pyLower flourValue = "none" then "default"
    else flourValue
  match cfg.fluorescence.find? (fun f => pyRstrip colorGrade = f.data_type) with
  | none => none
  | some f =>
    match f.tcfg.find? (fun c => pyLower c.name = pyLower dataF) with
    | none => none
    | some c => some c.value

/-- Model of `check_polish` (lines 186-204).  At every call site the `threshold`
argument is the literal `"None"`, so `threshold != 'None'` is false and only
the else branch is live; reading `type_configuration[1]` of a too-short row
raises `IndexError`. -/
def check_polish (value : String) (cfg : Config) : Except PyError ℚ :=
  match cfg.roundScore.find? (fun i => pyLower i.data_type = pyLower value) with
  | none => .ok 0
  | some i =>
    match i.tcValues.get? 1 with
    | some v => .ok v
    | none => .error .indexError

/-- Model of `check_symmetry` (lines 207-225): as `check_polish` but reading
`type_configuration[2]`. -/
def check_symmetry (value : String) (cfg : Config) : Except PyError ℚ :=
  match cfg.roundScore.find? (fun i => pyLower i.data_type = pyLower value) with
  | none => .ok 0
  | some i =>
    match i.tcValues.get? 2 with
    | some v => .ok v
    | none => .error .indexError

/-- Model of `check_cut_grade` (lines 911-929): as `check_polish`
(`type_configuration[1]`). -/
def check_cut_grade (value : String) (cfg : Config) : Except PyError ℚ :=
  match cfg.roundScore.find? (fun i => pyLower i.data_type = pyLower value) with
  | none => .ok 0
  | some i =>
    match i.tcValues.get? 1 with
    | some v => .ok v
    | none => .error .indexError

/-- Model of `assign_girdle_value` (lines 857-868). -/
def assign_girdle_value (value : String) (cfg : Config) : ℚ :=
  match cfg.girdleThickness.find? (fun i => pyLower i.name = pyLower value) with
  | some i => i.value
  | none => 0

/-- Model of `assign_girdle_value_for_heart` (lines 871-882). -/
def assign_girdle_value_for_heart (value : String) (cfg : Config) : ℚ :=
  match cfg.girdleThicknessHeart.find? (fun i => pyLower i.name = pyLower value) with
  | some i => i.value
  | none => 0

/-- Model of `check_culet` (lines 984-995): scan the `culet` rows; a row applies when
its shape word is a substring of the (lowercased, stripped) shape argument,
and within it the first name matching the culet text case-insensitively
wins; scanning continues across rows until a name matches. -/
def checkCuletGo (shape : String) (culetValue : String) : List CuletShape → ℚ
  | [] => 0
  | d :: rest =>
    if pyIn (pyLower d.shape) (pyStrip (pyLower shape)) then
      match d.value.find? (fun v => pyUpper v.name = pyUpper culetValue) with
      | some v => v.value
      | none => checkCuletGo shape culetValue rest
    else checkCuletGo shape culetValue rest

/-- Entry point of `check_culet`. -/
def check_culet (shape : String) (culetValue : String) (cfg : Config) : ℚ :=
  checkCuletGo shape culetValue cfg.culet

/-- One iteration step of `assign_measurement_value`'s row loop
(lines 892-906): parse the row's `"min-max"` weight range (`IndexError` /
`ValueError` propagate), return 5 on a bucket hit, and remember 5 in the
accumulator when `carat >= 2.0 and value >= 8`. -/
def amvLoop (value carat : ℚ) : List WeightRow → ℚ → Except PyError ℚ
  | [], acc => .ok acc
  | r :: rest, acc =>
    let parts := pySplit r.weight "-"
    match pyFloat (parts.getD 0 "") with
    | none => .error .valueError
    | some minW =>
      match parts.get? 1 with
      | none => .error .indexError
      | some hiS =>
        match pyFloat hiS with
        | none => .error .valueError
        | some maxW =>
          if minW ≤ carat && carat ≤ maxW && r.value ≤ value then .ok 5
          else amvLoop value carat rest (if 2 ≤ carat && 8 ≤ value then 5 else acc)

/-- Model of `assign_measurement_value` (lines 885-908). -/
def assign_measurement_value (value carat : ℚ) (rows : List WeightRow) : Except PyError ℚ :=
  amvLoop value carat rows 0

/-- Model of `get_pavillion_angle` / `get_round_crown` (lines 932-966): both walk a
range-keyed map with identical code, differing only in the table read;
a `"lo-hi"` key is an inclusive range test, any other key an exact match
against its first dash-piece; `float` failures propagate as `ValueError`. -/
def curveLookup (x : ℚ) : List (String × ℚ) → Except PyError ℚ
  | [] => .ok 0
  | (k, v) :: rest =>
    let parts := pySplit k "-"
    if parts.length = 2 then
      match pyFloat (parts.getD 0 "") with
      | none => .error .valueError
      | some lo =>
        if x < lo then curveLookup x rest
        else
          match pyFloat (parts.getD 1 "") with
          | none => .error .valueError
          | some hi => if x ≤ hi then .ok v else curveLookup x rest
    else
      match pyFloat (parts.getD 0 "") with
      | none => .error .valueError
      | some lo => if x = lo then .ok v else curveLookup x rest

/-! ## Inclusion/symbol scoring (`check_symbol`, lines 228-310)

Line 229 calls `.upper()` on the input before the `isinstance(..., list)`
test, so a list-valued `key_to_symbol` raises `AttributeError` before that
branch is reached; only string inputs are modelled.  The `next_idx` flag is
initialised `False` and never set to `True` (the assignment is commented
out), so `elif next_idx:` is dead and the conjunct `next_idx is False` is
always true.  Once `ind_flag` is set it is never reset (line 293 is
commented out). -/

/-- Canonicalisation used by the main loop branch (line 278-283): uppercase,
strip, delete every space, then undo two of the three foldings.  The
`GROWTHREMNANT` folding of line 231 is never undone. -/
def canonMain (d : String) : String :=
  let x := pyReplace (pyStrip (pyUpper d)) " " ""
  if x = "TWINNINGWISP" then "TWINNING WISP"
  else if x = "INDENTEDNATURAL" then "INDENTED NATURAL"
  else x

/-- Canonicalisation used by the `ind_flag` branch (line 294-297): uppercase
and strip only, undoing only the `TWINNINGWISP` folding. -/
def canonInd (d : String) : String :=
  let x := pyStrip (pyUpper d)
  if x = "TWINNINGWISP" then "TWINNING WISP" else x

/-- Lookup of a canonical token in the `KEYS TO SYMBOLS` table, reading
`type_configuration[0]['value']` of the matching row; `ok none` when the
token is not configured (the loop then appends nothing). -/
def symScore (tbl : List SymRow) (key : String) : Except PyError (Option ℚ) :=
  match tbl.find? (fun r => r.data_type = key) with
  | none => .ok none
  | some r =>
    match r.tcValues.get? 0 with
    | some v => .ok (some v)
    | none => .error .indexError

/-- The multi-token loop of `check_symbol` (lines 262-306), collecting the
scores of recognised tokens.  The Boolean is the running `ind_flag`; the
lookahead mirrors `data_ls[id + 1]` guarded by `try` (an `IndexError`
falls into the handler, which behaves like a failed lookahead). -/
def symLoop (tbl : List SymRow) : Bool → List String → Except PyError (List ℚ)
  | _, [] => .ok []
  | flag, d :: rest =>
    let isInd := pyStrip (pyLower d) = "indented"
    let nextNat := pyStrip (pyLower (rest.headD "")) = "natural" && !rest.isEmpty
    let flag2 := flag || (isInd && nextNat)
    let d2 := if isInd then "Indented Natural" else d
    if d2 ≠ "" && flag2 = false then
      match symScore tbl (canonMain d2) with
      | .error e => .error e
      | .ok none => symLoop tbl flag2 rest
      | .ok (some v) =>
        match symLoop tbl flag2 rest with
        | .error e => .error e
        | .ok l => .ok (v :: l)
    else if flag2 then
      match symScore tbl (canonInd d2) with
      | .error e => .error e
      | .ok none => symLoop tbl flag2 rest
      | .ok (some v) =>
        match symLoop tbl flag2 rest with
        | .error e => .error e
        | .ok l => .ok (v :: l)
    else symLoop tbl flag2 rest

/-- Minimum of a list of rationals with a default for the empty list
(Python `min(score)` and the `else: return 5`). -/
def minListD (l : List ℚ) (dflt : ℚ) : ℚ :=
  match l with
  | [] => dflt
  | x :: rest => rest.foldl min x

/-- Model of `check_symbol` (lines 228-310) on string inputs.  The three
multi-word foldings of lines 229-231 are applied to the whole uppercased
string before tokenising (comma split when a comma is present, else
whitespace split); a single token takes the raw folded string (no strip)
through the unfold table of lines 246-251, any other token count runs the
collecting loop and returns the minimum collected score, defaulting to 5. -/
def check_symbol (raw : String) (tbl : List SymRow) : Except PyError ℚ :=
  let s := pyReplace (pyReplace (pyReplace (pyUpper raw)
      "TWINNING WISP" "TWINNINGWISP") "INDENTED NATURAL" "INDENTEDNATURAL")
      "GROWTH REMNANT" "GROWTHREMNANT"
  let dataLs := if pyIn "," s then pySplit s "," else pySplitWs s
  if dataLs.length = 1 then
    let key :=
      if s = "TWINNINGWISP" then "TWINNING WISP"
      else if s = "INDENTEDNATURAL" then "INDENTED NATURAL"
      else s
    match tbl.find? (fun r => r.data_type = key) with
    | none => .ok 5
    | some r =>
      match r.tcValues.get? 0 with
      | some v => .ok v
      | none => .error .indexError
  else
    match symLoop tbl false dataLs with
    | .error e => .error e
    | .ok scores => .ok (minListD scores 5)

/-! ## Field merge (`fetch_data` lines 325-386, `fetch_data_round` lines
1005-1092)

Each field is copied from the affiliate record when the affiliate value is
not `None` and differs from every literal in that field's own hand-written
sentinel list.  The lists differ from field to field: the `shape`,
`culet`, `fluorescence`, `crown_angle`(round) lists miss some spellings the
other fields filter. -/

/-- Sentinel spellings rejected for `shape` (lines 326-328). -/
def shapeSents : List String := ["", "null", "Null", "False", "false"]

/-- Sentinel spellings rejected for `carat` (lines 330-333). -/
def caratSents : List String := ["false", "", "none", "None", "null", "Null"]

/-- Sentinel spellings rejected for `table_size` (lines 335-338). -/
def tableSents : List String := ["Null", "none", "", "None", "false", "False"]

/-- Sentinel spellings rejected for `griddle` (lines 340-343). -/
def griddleSents : List String := ["false", "False", "", "none", "None", "null", "Null"]

/-- Sentinel spellings rejected for `depth` (lines 345-348). -/
def depthSents : List String := ["null", "Null", "false", "False", "none", "None", ""]

/-- Sentinel spellings rejected for `measurement` (lines 350-353). -/
def measSents : List String := ["False", "false", "", "null", "Null", "none", "None"]

/-- Sentinel spellings rejected for `culet` (lines 355-357): `none` and
`None` are not filtered. -/
def culetSents : List String := ["", "false", "False", "null", "Null"]

/-- Sentinel spellings rejected for `color` (lines 360-363). -/
def colorSents : List String := ["none", "None", "", "False", "false", "null", "Null"]

/-- Sentinel spellings rejected for `polish` (lines 366-369). -/
def polishSents : List String := ["false", "False", "", "None", "none", "null", "Null"]

/-- Sentinel spellings rejected for `symmetry` (lines 372-375). -/
def symmetrySents : List String := ["", "false", "False", "none", "None", "null", "Null"]

/-- Sentinel spellings rejected for `fluorescence` (lines 377-380): `none`
and `None` are not filtered. -/
def fluorSents : List String := ["", "False", "false", "null", "Null"]

/-- Sentinel spellings rejected for `cut` (lines 382-386). -/
def cutSents : List String := ["", "none", "None", "false", "False", "null", "Null"]

/-- Sentinel spellings rejected for `pavilion_height` (round merge, lines
1067-1072): includes `0.0000`. -/
def pavHeightSents : List String :=
  ["false", "", "False", "none", "None", "null", "Null", "0.0000"]

/-- Sentinel spellings rejected for `pavilion_angle` (round merge, lines
1074-1079): includes `0.0000`. -/
def pavAngleSents : List String :=
  ["false", "", "False", "none", "None", "null", "Null", "0.0000"]

/-- Sentinel spellings rejected for `crown_height` (round merge, lines
1081-1085). -/
def crownHeightSents : List String :=
  ["", "false", "False", "none", "None", "null", "Null"]

/-- Sentinel spellings rejected for `crown_angle` (round merge, lines
1087-1091). -/
def crownAngleSents : List String :=
  ["", "False", "false", "none", "None", "null", "Null"]

/-- Python test `v is not None and v != s1 and ... and v != sn`. -/
def affValid (v : Option String) (sents : List String) : Bool :=
  match v with
  | none => false
  | some s => !(sents.contains s)

/-- Copy an affiliate value over a record field when it passes the field's
sentinel filter, else keep the field. -/
def updIf (cur : Fld) (v : Option String) (sents : List String) : Fld :=
  match v with
  | none => cur
  | some s => if sents.contains s then cur else .str s

/-- The merge block of `fetch_data` (lines 325-386).  The guard
`affiliate_process_data is not None and affiliate_process_data` is the
`Option.isSome` test (a supplied affiliate dict is non-empty). -/
def mergeAffiliate (pdf : RawRec) (aff : Option AffRec) : RawRec :=
  match aff with
  | none => pdf
  | some a =>
    { pdf with
      shape := updIf pdf.shape a.shape shapeSents
      carat := updIf pdf.carat a.carat caratSents
      table_size := updIf pdf.table_size a.table_size tableSents
      girdle := updIf pdf.girdle a.griddle griddleSents
      depth := updIf pdf.depth a.depth depthSents
      measurement := updIf pdf.measurement a.measurement measSents
      culet := updIf pdf.culet a.culet culetSents
      color_grade := updIf pdf.color_grade a.color colorSents
      polish := updIf pdf.polish a.polish polishSents
      symmetry := updIf pdf.symmetry a.symmetry symmetrySents
      fluorescence := updIf pdf.fluorescence a.fluorescence fluorSents
      cut := updIf pdf.cut a.cut cutSents }

/-- The merge block of `fetch_data_round` (lines 1005-1092): the same twelve
fields plus `pavilion_height`, `pavilion_angle`, `crown_height` and
`crown_angle`. -/
def mergeAffiliateRound (pdf : RawRec) (aff : Option AffRec) : RawRec :=
  match aff with
  | none => pdf
  | some a =>
    { pdf with
      shape := updIf pdf.shape a.shape shapeSents
      carat := updIf pdf.carat a.carat caratSents
      table_size := updIf pdf.table_size a.table_size tableSents
      girdle := updIf pdf.girdle a.griddle griddleSents
      depth := updIf pdf.depth a.depth depthSents
      measurement := updIf pdf.measurement a.measurement measSents
      culet := updIf pdf.culet a.culet culetSents
      color_grade := updIf pdf.color_grade a.color colorSents
      polish := updIf pdf.polish a.polish polishSents
      symmetry := updIf pdf.symmetry a.symmetry symmetrySents
      fluorescence := updIf pdf.fluorescence a.fluorescence fluorSents
      cut := updIf pdf.cut a.cut cutSents
      pavilion_height := updIf pdf.pavilion_height a.pavilion_height pavHeightSents
      pavilion_angle := updIf pdf.pavilion_angle a.pavilion_angle pavAngleSents
      crown_height := updIf pdf.crown_height a.crown_height crownHeightSents
      crown_angle := updIf pdf.crown_angle a.crown_angle crownAngleSents }

/-! ## Engine output -/

/-- Assigning a raw affiliate value into a dict key (`None` stays `None`). -/
def ofOpt : Option String → Fld
  | none => .null
  | some s => .str s

/-- The per-attribute score dictionary plus the composite, as assembled at
the end of either engine path: `scores` is `final_dict` in insertion order
just before `digisation_score` is added, `percent` the exact composite
percentage, `digisation` the rendered `digisation_score` string.
(`score_info_dict` only reshapes these entries into a fixed 15-key record
and `dict_np` tags the missing ones `"Not Applicable"`; the claims are about
the tally itself, which this structure preserves verbatim.) -/
structure ScoreOut where
  scores : List (String × ℚ)
  percent : ℚ
  digisation : String
deriving DecidableEq, Repr

/-- Result of an engine call: a score record, or the
`{"Status": "can't find shape from data"}` failure value. -/
inductive EngineResult where
  | score (out : ScoreOut)
  | statusFail
deriving DecidableEq, Repr

/-- Model of `dict_np` (lines 1542-1557) restricted to its effect on the
certificate record: the listed keys are overwritten with
`"Not Applicable"` when absent or `None`. -/
def naFix : Fld → Fld
  | .null => .str "Not Applicable"
  | .absent => .str "Not Applicable"
  | f => f

/-- Application of `dict_np` to the record. -/
def dictNp (pdf : RawRec) : RawRec :=
  { pdf with
    cut := naFix pdf.cut
    crown_angle := naFix pdf.crown_angle
    pavilion_height := naFix pdf.pavilion_height
    pavilion_angle := naFix pdf.pavilion_angle
    crown_height := naFix pdf.crown_height
    star_length := naFix pdf.star_length
    lower_half_length := naFix pdf.lower_half_length }

/-- Composite computation shared by both paths (fancy lines 839-851, round
lines 1524-1536): sum the tally, divide by five points per attribute, render
the percentage. -/
def mkComposite (scores : List (String × ℚ)) (pdf0 pdfF : RawRec) :
    Except PyError (EngineResult × RawRec × RawRec) :=
  let total := (scores.map Prod.snd).sum
  let overall : ℚ := (scores.length : ℚ) * 5
  if overall = 0 then .error .zeroDivisionError
  else
    let percent := total / overall * 100
    .ok (.score ⟨scores, percent, renderRound2 percent ++ "%"⟩, pdf0, dictNp pdfF)

/-- Inclusive range test `x >= float(parts[0]) and x <= float(parts[1])`
scoring 5/0, with Python's left-to-right short-circuit evaluation (a failing
lower bound never touches `parts[1]`). -/
def rangeTest (x : ℚ) (parts : List String) : Except PyError ℚ :=
  match pyFloat (parts.getD 0 "") with
  | none => .error .valueError
  | some lo =>
    if x < lo then .ok 0
    else
      match parts.get? 1 with
      | none => .error .indexError
      | some hiS =>
        match pyFloat hiS with
        | none => .error .valueError
        | some hi => .ok (if x ≤ hi then 5 else 0)

/-- Round-path scoring of an angle: 5 inside the primary window, otherwise
the graduated curve table (`fetch_data_round` lines 1322-1326, 1355-1359). -/
def roundAngleScore (x : ℚ) (parts : List String) (curve : List (String × ℚ)) :
    Except PyError ℚ :=
  match pyFloat (parts.getD 0 "") with
  | none => .error .valueError
  | some lo =>
    if x < lo then curveLookup x curve
    else
      match parts.get? 1 with
      | none => .error .indexError
      | some hiS =>
        match pyFloat hiS with
        | none => .error .valueError
        | some hi => if x ≤ hi then .ok 5 else curveLookup x curve

/-! ## The round path (`fetch_data_round`, lines 998-1539) -/

/-- First dash-free token of the measurement string (lines 1098-1100). -/
def lastMeaOf (m : String) : String :=
  (pySplit ((pySplit ((pySplit m "*").getD 0 "") "x").getD 0 "") "X").getD 0 ""

/-- Lines 1095-1117: the diameter token, with the affiliate fallback taken
only when the `measurement` key is absent (a present `None` is left alone). -/
def lastMeaBlock (pdf : RawRec) (aff : Option AffRec) : RawRec × Option String :=
  match pdf.measurement with
  | .str m => (pdf, some (lastMeaOf m))
  | .null => (pdf, none)
  | .absent =>
    match aff with
    | none => (pdf, none)
    | some a =>
      if affValid a.measurement measSents then
        let m := a.measurement.getD ""
        ({ pdf with measurement := .str m }, some (lastMeaOf m))
      else (pdf, none)

/-- The tolerance windows read unconditionally at lines 1121-1130; the
`crown_angle` window is read lazily at lines 1353/1366, so it stays a raw
optional string here. -/
structure RoundRanges where
  tableParts : List String
  depthParts : List String
  pavAngleParts : List String
  pavDepthParts : List String
  crownAngleStr : Option String
deriving DecidableEq, Repr

/-- Lines 1121-1130: look up the shape requirement by the lowercased first
shape word and split the four unconditional windows.  A missing requirement
makes `req_dict` `None` and the subscript at line 1127 raises `TypeError`;
a missing sub-key raises `KeyError`; an empty word list raises `IndexError`
inside the filter lambda. -/
def reqBlockRound (req_dc : List DiamondEntry) (t : List String) :
    Except PyError RoundRanges :=
  match t.head? with
  | none => .error .indexError
  | some t0 =>
    match req_dc.find? (fun d => d.diamondType = pyLower t0) with
    | none => .error .typeError
    | some e =>
      match e.req.table, e.req.depth, e.req.pavilion_angle, e.req.pavilion_depth with
      | some tb, some dp, some pa, some pd =>
        .ok ⟨pySplit tb "-", pySplit dp "-", pySplit pa "-", pySplit pd "-",
          e.req.crown_angle⟩
      | _, _, _, _ => .error .keyError

/-- Lines 1133-1141: trim a multi-word girdle description (drop a
parenthesised next-to-last word and a trailing percentage word); an empty
word list hits `gridle_ls[-2]` and raises `IndexError`. -/
def girdleGiaOf (g : String) : Except PyError String :=
  let ls := pySplitWs g
  if ls.length ≠ 1 then
    match ls with
    | [] => .error .indexError
    | _ :: _ =>
      let ls2 := if pyIn "(" (ls.getD (ls.length - 2) "") then ls.eraseIdx (ls.length - 2) else ls
      let ls3 := if pyIn "%" (ls2.getLastD "") then ls2.dropLast else ls2
      .ok (String.intercalate " " ls3)
  else .ok g

/-- Lines 1132-1168: the girdle text used later for scoring.  When the key
is absent or `None` and the affiliate `griddle` passes its filter, line 1149
reads `affiliate_process_data['girdle']` — a key the affiliate record does
not have — so that branch raises `KeyError` (it is unreachable after the
merge, which fills `girdle` whenever `griddle` is valid). -/
def girdleBlockRound (pdf : RawRec) (aff : Option AffRec) :
    Except PyError (RawRec × String) :=
  match pdf.girdle with
  | .str g =>
    match girdleGiaOf g with
    | .error e => .error e
    | .ok gia => .ok (pdf, gia)
  | _ =>
    match aff with
    | none => .ok ({ pdf with girdle := .str "ND" }, "None")
    | some a =>
      if affValid a.griddle griddleSents then .error .keyError
      else .ok ({ pdf with girdle := .str "ND" }, "None")

/-- Lines 1169-1190: the polish text (round path: not lowercased). -/
def polishPreRound (pdf : RawRec) (aff : Option AffRec) : RawRec × String :=
  match pdf.polish with
  | .str p => (pdf, p)
  | _ =>
    match aff with
    | none => ({ pdf with polish := .str "ND" }, "None")
    | some a =>
      if affValid a.polish polishSents then
        let v := a.polish.getD ""
        ({ pdf with polish := .str v }, v)
      else ({ pdf with polish := .str "ND" }, "None")

/-- Lines 1192-1213: the symmetry text. -/
def symPreRound (pdf : RawRec) (aff : Option AffRec) : RawRec × String :=
  match pdf.symmetry with
  | .str s => (pdf, s)
  | _ =>
    match aff with
    | none => ({ pdf with symmetry := .str "ND" }, "None")
    | some a =>
      if affValid a.symmetry symmetrySents then
        let v := a.symmetry.getD ""
        ({ pdf with symmetry := .str v }, v)
      else ({ pdf with symmetry := .str "ND" }, "None")

/-- Lines 1215-1235: the cut grade text. -/
def cutPreRound (pdf : RawRec) (aff : Option AffRec) : RawRec × String :=
  match pdf.cut with
  | .str c => (pdf, c)
  | _ =>
    match aff with
    | none => ({ pdf with cut := .str "ND" }, "None")
    | some a =>
      if affValid a.cut cutSents then
        let v := a.cut.getD ""
        ({ pdf with cut := .str v }, v)
      else ({ pdf with cut := .str "ND" }, "None")

/-- Lines 1237-1258: the culet score, always against the `"round"` culet
sub-table. -/
def culetBlockRound (cfg : Config) (pdf : RawRec) (aff : Option AffRec) :
    RawRec × ℚ :=
  match pdf.culet with
  | .str c => (pdf, check_culet "round" c cfg)
  | _ =>
    match aff with
    | none => ({ pdf with culet := .str "ND" }, 0)
    | some a =>
      if affValid a.culet culetSents then
        let v := a.culet.getD ""
        ({ pdf with culet := .str v }, check_culet "round" v cfg)
      else ({ pdf with culet := .str "ND" }, 0)

/-- Lines 1261-1276: the carat value used for the diameter table: a parsed
float, or the raw string when parsing fails (string comparisons against
floats later raise `TypeError`, caught by the measurement `try`).  Line 1276
writes the Python integer `0` into `pdf_dc['carat']`, rendered here as the
digit string (the engine never reads the key again). -/
def caratBlockRound (pdf : RawRec) (aff : Option AffRec) :
    Except PyError (RawRec × (ℚ ⊕ String)) :=
  match pdf.carat with
  | .absent => .error .keyError
  | fld =>
    let c0 : ℚ ⊕ String :=
      match fld with
      | .str cs =>
        match pyFloat ((pySplit cs " ").getD 0 "") with
        | some q => .inl q
        | none => .inr cs
      | _ => .inl 0
    match aff with
    | none => .ok (pdf, c0)
    | some a =>
      if affValid a.carat caratSents then
        let v := a.carat.getD ""
        .ok ({ pdf with carat := .str v }, .inr v)
      else .ok ({ pdf with carat := .str "0" }, c0)

/-- Lines 1278-1290: the diameter-vs-carat score; the whole call is wrapped
in `try`, so a `ValueError` from `float(last_mea)`, a `TypeError` from
comparing a string carat, or any table error degrades to 0. -/
def measBlockRound (cfg : Config) (pdf : RawRec) (lastMea : Option String)
    (carat : ℚ ⊕ String) : RawRec × ℚ :=
  match pdf.measurement with
  | .str _ =>
    match lastMea with
    | some lm =>
      let score : ℚ :=
        match pyFloat lm, carat with
        | some v, .inl c =>
          match assign_measurement_value v c cfg.measurement with
          | .ok s => s
          | .error _ => 0
        | some _, .inr _ => 0
        | none, _ => 0
      (pdf, score)
    | none => (pdf, 0)
  | _ => ({ pdf with measurement := .str "ND" }, 0)

/-- Lines 1300-1316: pavilion height, affiliate arm.  The raw affiliate
value (possibly `None`) is written into the record before re-testing; the
inner test drops the `ND`/`Not Applicable` guards of the outer one. -/
def pavHeightElse (rr : RoundRanges) (pdf : RawRec) (aff : Option AffRec) :
    Except PyError (RawRec × ℚ) :=
  match aff with
  | none => .ok ({ pdf with pavilion_height := .str "ND" }, 0)
  | some a =>
    let pdf := { pdf with pavilion_height := ofOpt a.pavilion_height }
    match pdf.pavilion_height with
    | .str v =>
      if v ≠ "false" && v ≠ "" && v ≠ "1" then
        match findDigi v with
        | none => .error .indexError
        | some x => (rangeTest x rr.pavDepthParts).map (fun s => (pdf, s))
      else .ok ({ pdf with pavilion_height := .str "ND" }, 0)
    | _ => .ok ({ pdf with pavilion_height := .str "ND" }, 0)

/-- Lines 1292-1316: pavilion height against the `pavilion_depth` window. -/
def pavHeightBlock (rr : RoundRanges) (pdf : RawRec) (aff : Option AffRec) :
    Except PyError (RawRec × ℚ) :=
  match pdf.pavilion_height with
  | .str v =>
    if v ≠ "false" && v ≠ "" && v ≠ "ND" && v ≠ "Not Applicable" && v ≠ "1" then
      match findDigi v with
      | none => .error .indexError
      | some x => (rangeTest x rr.pavDepthParts).map (fun s => (pdf, s))
    else pavHeightElse rr pdf aff
  | _ => pavHeightElse rr pdf aff

/-- Lines 1327-1346: pavilion angle, affiliate arm. -/
def pavAngleElse (cfg : Config) (rr : RoundRanges) (pdf : RawRec)
    (aff : Option AffRec) : Except PyError (RawRec × ℚ) :=
  match aff with
  | none => .ok ({ pdf with pavilion_angle := .str "ND" }, 0)
  | some a =>
    let pdf := { pdf with pavilion_angle := ofOpt a.pavilion_angle }
    match pdf.pavilion_angle with
    | .str v =>
      if v ≠ "false" && v ≠ "" && v ≠ "1" then
        match findDigi v with
        | none => .error .indexError
        | some x =>
          (roundAngleScore x rr.pavAngleParts cfg.pavAngleCurve).map (fun s => (pdf, s))
      else .ok ({ pdf with pavilion_angle := .str "ND" }, 0)
    | _ => .ok ({ pdf with pavilion_angle := .str "ND" }, 0)

/-- Lines 1318-1346: pavilion angle, window score with graduated-curve
fallback. -/
def pavAngleBlock (cfg : Config) (rr : RoundRanges) (pdf : RawRec)
    (aff : Option AffRec) : Except PyError (RawRec × ℚ) :=
  match pdf.pavilion_angle with
  | .str v =>
    if v ≠ "false" && v ≠ "" && v ≠ "ND" && v ≠ "Not Applicable" && v ≠ "1" then
      match findDigi v with
      | none => .error .indexError
      | some x =>
        (roundAngleScore x rr.pavAngleParts cfg.pavAngleCurve).map (fun s => (pdf, s))
    else pavAngleElse cfg rr pdf aff
  | _ => pavAngleElse cfg rr pdf aff

/-- Lines 1360-1379: crown angle, affiliate arm (here the `crown_angle`
window is read before the numeric parse, the opposite order of the main
arm). -/
def crownAngleElse (cfg : Config) (rr : RoundRanges) (pdf : RawRec)
    (aff : Option AffRec) : Except PyError (RawRec × ℚ) :=
  match aff with
  | none => .ok ({ pdf with crown_angle := .str "ND" }, 0)
  | some a =>
    let pdf := { pdf with crown_angle := ofOpt a.crown_angle }
    match pdf.crown_angle with
    | .str v =>
      if v ≠ "" && v ≠ "false" && v ≠ "none" && v ≠ "ND" && v ≠ "1" then
        match rr.crownAngleStr with
        | none => .error .keyError
        | some ca =>
          match findDigi v with
          | none => .error .indexError
          | some x =>
            (roundAngleScore x (pySplit ca "-") cfg.roundCrownCurve).map
              (fun s => (pdf, s))
      else .ok ({ pdf with crown_angle := .str "ND" }, 0)
    | _ => .ok ({ pdf with crown_angle := .str "ND" }, 0)

/-- Lines 1348-1379: crown angle; the main arm parses the value first
(line 1351) and only then reads the `crown_angle` window (line 1353, a
`KeyError` when the requirement lacks it). -/
def crownAngleBlock (cfg : Config) (rr : RoundRanges) (pdf : RawRec)
    (aff : Option AffRec) : Except PyError (RawRec × ℚ) :=
  match pdf.crown_angle with
  | .str v =>
    if v ≠ "" && v ≠ "false" && v ≠ "none" && v ≠ "ND" && v ≠ "Not Applicable" && v ≠ "1" then
      match findDigi v with
      | none => .error .indexError
      | some x =>
        match rr.crownAngleStr with
        | none => .error .keyError
        | some ca =>
          (roundAngleScore x (pySplit ca "-") cfg.roundCrownCurve).map
            (fun s => (pdf, s))
    else crownAngleElse cfg rr pdf aff
  | _ => crownAngleElse cfg rr pdf aff

/-- Lines 1381-1422: table size against the `table` window (the round path
never strips a `%`; the affiliate arm only special-cases `'0'`). -/
def tableBlockRound (rr : RoundRanges) (pdf : RawRec) (aff : Option AffRec) :
    Except PyError (RawRec × ℚ) :=
  match pdf.table_size with
  | .str v =>
    if v = "0" || v = "ND" || v = "Not Applicable" then
      (rangeTest 0 rr.tableParts).map (fun s => (pdf, s))
    else
      match findDigi v with
      | none => .error .indexError
      | some x => (rangeTest x rr.tableParts).map (fun s => (pdf, s))
  | _ =>
    match aff with
    | none => .ok ({ pdf with table_size := .str "ND" }, 0)
    | some a =>
      if affValid a.table_size tableSents then
        let v := a.table_size.getD ""
        let pdf := { pdf with table_size := .str v }
        if v = "0" then (rangeTest 0 rr.tableParts).map (fun s => (pdf, s))
        else
          match findDigi v with
          | none => .error .indexError
          | some x => (rangeTest x rr.tableParts).map (fun s => (pdf, s))
      else .ok ({ pdf with table_size := .str "ND" }, 0)

/-- Lines 1424-1457: depth against the `depth` window (the affiliate arm
has no `'0'` special case at all). -/
def depthBlockRound (rr : RoundRanges) (pdf : RawRec) (aff : Option AffRec) :
    Except PyError (RawRec × ℚ) :=
  match pdf.depth with
  | .str v =>
    if v = "0" || v = "ND" || v = "Not Applicable" then
      (rangeTest 0 rr.depthParts).map (fun s => (pdf, s))
    else
      match findDigi v with
      | none => .error .indexError
      | some x => (rangeTest x rr.depthParts).map (fun s => (pdf, s))
  | _ =>
    match aff with
    | none => .ok ({ pdf with depth := .str "ND" }, 0)
    | some a =>
      if affValid a.depth depthSents then
        let v := a.depth.getD ""
        let pdf := { pdf with depth := .str v }
        match findDigi v with
        | none => .error .indexError
        | some x => (rangeTest x rr.depthParts).map (fun s => (pdf, s))
      else .ok ({ pdf with depth := .str "ND" }, 0)

/-- Lines 1459-1467: normalise lowercase sentinels in the girdle text, then
score the trimmed description. -/
def girdleScoreRound (cfg : Config) (pdf : RawRec) (gia : String) :
    Except PyError (RawRec × ℚ) :=
  match pdf.girdle with
  | .absent => .error .keyError
  | g0 =>
    let pdf :=
      if g0 = Fld.str "none" ∨ g0 = Fld.str "false" ∨ g0 = Fld.str "None" then
        { pdf with girdle := .str "ND" }
      else pdf
    if pdf.girdle = Fld.str "ND" ∨ pdf.girdle = Fld.null then .ok (pdf, 0)
    else .ok (pdf, assign_girdle_value gia cfg)

/-- Lines 1469-1473 (and the fancy twin at 786-791): polish score. -/
def polishScoreBlock (cfg : Config) (pdf : RawRec) (pv : String) :
    Except PyError ℚ :=
  match fldGet pdf.polish with
  | .error e => .error e
  | .ok x => if x = some "ND" ∨ x = none then .ok 0 else check_polish pv cfg

/-- Lines 1474-1478 (and 792-796): symmetry score. -/
def symmetryScoreBlock (cfg : Config) (pdf : RawRec) (sv : String) :
    Except PyError ℚ :=
  match fldGet pdf.symmetry with
  | .error e => .error e
  | .ok x => if x = some "ND" ∨ x = none then .ok 0 else check_symmetry sv cfg

/-- Lines 1480-1484: cut score (round path only). -/
def cutScoreBlock (cfg : Config) (pdf : RawRec) (cv : String) :
    Except PyError ℚ :=
  match fldGet pdf.cut with
  | .error e => .error e
  | .ok x => if x = some "ND" ∨ x = none then .ok 0 else check_cut_grade cv cfg

/-- Lines 1504-1515: the round-path `'ND'` fixes after a failed
fluorescence lookup; note both color tests are `is not None`, so a present
color grade is overwritten with `'ND'`. -/
def fluorNDFixRound (pdf : RawRec) : Except PyError RawRec :=
  match fldGet pdf.fluorescence with
  | .error e => .error e
  | .ok fv =>
    let pdf := if fv = none then { pdf with fluorescence := .str "ND" } else pdf
    match fldGet pdf.color_grade with
    | .error e => .error e
    | .ok (some _) => .ok { pdf with color_grade := .str "ND" }
    | .ok none => .ok pdf

/-- Lines 1493-1515: fluorescence, affiliate arm (raw affiliate
`fluorescence` and `color` values are written without filtering). -/
def fluorElseRound (cfg : Config) (pdf : RawRec) (aff : Option AffRec) :
    Except PyError (RawRec × ℚ) :=
  match aff with
  | none => (fluorNDFixRound pdf).map (fun p => (p, (0 : ℚ)))
  | some a =>
    let pdf := { pdf with fluorescence := ofOpt a.fluorescence,
                          color_grade := ofOpt a.color }
    match pdf.fluorescence, pdf.color_grade with
    | .str f, .str c => .ok (pdf, (check_fluorescence f cfg c).getD 0)
    | _, _ => (fluorNDFixRound pdf).map (fun p => (p, (0 : ℚ)))

/-- Lines 1486-1515: fluorescence score keyed by color grade. -/
def fluorBlockRound (cfg : Config) (pdf : RawRec) (aff : Option AffRec) :
    Except PyError (RawRec × ℚ) :=
  match fldGet pdf.fluorescence with
  | .error e => .error e
  | .ok (some f) =>
    match fldGet pdf.color_grade with
    | .error e => .error e
    | .ok (some c) => .ok (pdf, (check_fluorescence f cfg c).getD 0)
    | .ok none => fluorElseRound cfg pdf aff
  | .ok none => fluorElseRound cfg pdf aff

/-- Lines 1517-1522 (and the fancy twin at 832-837): inclusion/symbol
score, defaulting to 5 when the key is absent or `None`. -/
def symbolBlock (cfg : Config) (pdf : RawRec) : Except PyError (RawRec × ℚ) :=
  match pdf.key_to_symbol with
  | .str s => (check_symbol s cfg.keysToSymbols).map (fun v => (pdf, v))
  | _ => .ok (pdf, 5)

/-- Model of `fetch_data_round` (lines 998-1539).  The `shape` parameter of
the Python function is `None` at every call site and is omitted. -/
def fetch_data_round (req_dc : List DiamondEntry) (cfg : Config) (pdf0 : RawRec)
    (aff : Option AffRec) : Except PyError (EngineResult × RawRec × RawRec) :=
  let pdf := mergeAffiliateRound pdf0 aff
  match pdf.shape with
  | .absent => .ok (.statusFail, pdf0, pdf)
  | .null => .error .attributeError
  | .str sh =>
    let t := pySplitWs sh
    let pm := lastMeaBlock pdf aff
    match reqBlockRound req_dc t with
    | .error e => .error e
    | .ok rr =>
      match girdleBlockRound pm.1 aff with
      | .error e => .error e
      | .ok (pdf, gia) =>
        let pp := polishPreRound pdf aff
        let ps := symPreRound pp.1 aff
        let pc := cutPreRound ps.1 aff
        let pu := culetBlockRound cfg pc.1 aff
        match caratBlockRound pu.1 aff with
        | .error e => .error e
        | .ok (pdf, carat) =>
          let pme := measBlockRound cfg pdf pm.2 carat
          match pavHeightBlock rr pme.1 aff with
          | .error e => .error e
          | .ok (pdf, phS) =>
            match pavAngleBlock cfg rr pdf aff with
            | .error e => .error e
            | .ok (pdf, paS) =>
              match crownAngleBlock cfg rr pdf aff with
              | .error e => .error e
              | .ok (pdf, caS) =>
                match tableBlockRound rr pdf aff with
                | .error e => .error e
                | .ok (pdf, tbS) =>
                  match depthBlockRound rr pdf aff with
                  | .error e => .error e
                  | .ok (pdf, dpS) =>
                    match girdleScoreRound cfg pdf gia with
                    | .error e => .error e
                    | .ok (pdf, gdS) =>
                      match polishScoreBlock cfg pdf pp.2 with
                      | .error e => .error e
                      | .ok poS =>
                        match symmetryScoreBlock cfg pdf ps.2 with
                        | .error e => .error e
                        | .ok syS =>
                          match cutScoreBlock cfg pdf pc.2 with
                          | .error e => .error e
                          | .ok cuS =>
                            match fluorBlockRound cfg pdf aff with
                            | .error e => .error e
                            | .ok (pdf, flS) =>
                              match symbolBlock cfg pdf with
                              | .error e => .error e
                              | .ok (pdf, ksS) =>
                                mkComposite
                                  [("culet_score", pu.2),
                                   ("measurement_score", pme.2),
                                   ("pavilion_height_score", phS),
                                   ("pavilion_angle_score", paS),
                                   ("crown_angle_score", caS),
                                   ("table_size_score", tbS),
                                   ("depth_score", dpS),
                                   ("girdle_score", gdS),
                                   ("polish_score", poS),
                                   ("symmetry_score", syS),
                                   ("cut_score", cuS),
                                   ("fluorescence_score", flS),
                                   ("key_to_symbol_score", ksS)]
                                  pdf0 pdf

/-! ## The fancy path (`fetch_data`, lines 317-854)

The duplicated classification block at lines 424-465 sits in the `else` of
an `if "shape" in pdf_dc:` nested inside another `if "shape" in pdf_dc:`
with the same condition, so it is unreachable and not modelled. -/

/-- Assignment `type[0] = v` (an empty word list raises `IndexError`). -/
def setT0 (t : List String) (v : String) : Except PyError (List String) :=
  match t with
  | [] => .error .indexError
  | _ :: rest => .ok (v :: rest)

/-- The shape classification chain of lines 390-421, returning the possibly
rewritten shape string (only the cushion branch rewrites it) and the word
list whose head is the canonical family key. -/
def classifyFancy (sh : String) : Except PyError (String × List String) :=
  let t := pySplitWs sh
  match
    (if pyIn "Square Emerald" sh then setT0 t "asscher"
     else if pyIn "Square Modified" sh then setT0 t "princess"
     else .ok t) with
  | .error e => .error e
  | .ok t =>
    match
      (if pyIn "CUT CORNERED RECTANGULAR" (pyUpper sh) then setT0 t "radiant rec"
       else .ok t) with
    | .error e => .error e
    | .ok t =>
      if pyIn "CUT EMERALD" sh then (setT0 t "emerald").map (fun t => (sh, t))
      else if pyIn "Cut-Cornered" sh && pyIn "Rectangular" sh then
        (setT0 t "radiant rec").map (fun t => (sh, t))
      else if pyIn "Cut-Cornered " sh && pyIn "square" sh then
        (setT0 t "radiant sq").map (fun t => (sh, t))
      else
        match t.head? with
        | none => .error .indexError
        | some t0 =>
          if pyLower t0 = "cc" then (setT0 t "cushion").map (fun t => (sh, t))
          else if pyIn "cushion" (pyLower sh) then
            (setT0 t "cushion").map (fun t => ("cushion", t))
          else if pyIn "Cut-Cornered " sh || pyIn "Rectangular" sh then
            (setT0 t "radiant rec").map (fun t => (sh, t))
          else if pyIn "Cut-Cornered " sh || pyIn "square" sh then
            (setT0 t "radiant sq").map (fun t => (sh, t))
          else if pyIn "radiant" (pyLower sh) then
            (setT0 t "radiant sq").map (fun t => (sh, t))
          else if pyIn "brilliant pear" (pyLower sh) then
            (setT0 t "pear").map (fun t => (sh, t))
          else if pyIn "pear brilliant" (pyLower sh) then
            (setT0 t "pear").map (fun t => (sh, t))
          else .ok (sh, t)

/-- State of the Python local `lw_ratio`: a numeric value, the string
`'ND'`, or never assigned (referencing it raises `NameError`). -/
inductive LwVal where
  | nd
  | val (x : ℚ)
  | unbound
deriving DecidableEq, Repr

/-- Division attempt `float(a) / float(b)` under a bare `except` (parse
failures and a zero divisor all fall into the handler). -/
def lwTryPair (a b : String) : Option ℚ :=
  match pyFloat a, pyFloat b with
  | some x, some y => if y = 0 then none else some (x / y)
  | _, _ => none

/-- Lines 470-483: the length/width quotient from one measurement string;
the Boolean reports whether the handler set `measurement = 'ND'`. -/
def lwCompute (s : String) : LwVal × Bool :=
  let ms := pySplit (pyLower (pyReplace (pyReplace s "," ".") "*" "x")) "x"
  let ms := if ms.length = 1 then pySplit s "X" else ms
  match lwTryPair (ms.getD 0 "") (ms.getD 1 "") with
  | some x => (.val x, false)
  | none =>
    let sp := pySplitWs (ms.getD 0 "")
    match lwTryPair (sp.getD 0 "") (sp.getD 1 "") with
    | some x => (.val x, false)
    | none => (.nd, true)

/-- Lines 491-527: the `except` branch of the Decimal conversion — retry the
quotient from the affiliate measurement, else set `measurement = 'ND'`. -/
def lwDecimalRetry (pdf : RawRec) (aff : Option AffRec) : RawRec × LwVal :=
  match aff with
  | none => ({ pdf with measurement := .str "ND" }, .nd)
  | some a =>
    if affValid a.measurement measSents then
      let ms := a.measurement.getD ""
      let pdf := { pdf with measurement := .str ms }
      let c := lwCompute ms
      let pdf := if c.2 then { pdf with measurement := .str "ND" } else pdf
      match c.1 with
      | .val x => (pdf, .val (roundHalfEven2 x))
      | lw => ({ pdf with measurement := .str "ND" }, lw)
    else ({ pdf with measurement := .str "ND" }, .nd)

/-- Lines 469-563: the measurement/ratio block.  Reading an absent
`measurement` key raises `KeyError` (line 469); a present `None` takes the
affiliate fallback of lines 528-563, which leaves `lw_ratio` unbound when no
usable affiliate measurement exists. -/
def lwBlock (pdf : RawRec) (aff : Option AffRec) : Except PyError (RawRec × LwVal) :=
  match pdf.measurement with
  | .absent => .error .keyError
  | .str s =>
    let c := lwCompute s
    let pdf := if c.2 then { pdf with measurement := .str "ND" } else pdf
    match c.1 with
    | .val x => .ok (pdf, .val (roundHalfEven2 x))
    | _ => .ok (lwDecimalRetry pdf aff)
  | .null =>
    match aff with
    | none => .ok ({ pdf with measurement := .str "ND" }, .unbound)
    | some a =>
      if affValid a.measurement measSents then
        let ms := a.measurement.getD ""
        let pdf := { pdf with measurement := .str ms }
        let c := lwCompute ms
        let pdf := if c.2 then { pdf with measurement := .str "ND" } else pdf
        match c.1 with
        | .val x => .ok (pdf, .val (roundHalfEven2 x))
        | lw => .ok ({ pdf with measurement := .str "ND" }, lw)
      else .ok ({ pdf with measurement := .str "ND" }, .unbound)

/-- Lines 565-574: when `"not"` does not occur in the shape string, bind
`req_dict` (the looked-up requirement or `None`) and `ratio` (its split
length/width range, `None` when the lookup or the key fails, both caught);
otherwise both names stay unbound (`none` at the outer level). -/
def reqRngFancy (req_dc : List DiamondEntry) (sh : String) (t : List String) :
    Except PyError (Option (Option DiamondsReq × Option (List String))) :=
  if pyIn "not" sh then .ok none
  else
    match t.head? with
    | none => .error .indexError
    | some t0 =>
      let reqOpt := (req_dc.find? (fun d => d.diamondType = pyLower t0)).map
        (fun d => d.req)
      let rng := reqOpt.bind
        (fun r => r.length_width_ratio.map (fun s => pySplit s "-"))
      .ok (some (reqOpt, rng))

/-- Lines 583-598: the girdle text (fancy path reads the key with a plain
subscript, so an absent key raises `KeyError`). -/
def girdlePreFancy (pdf : RawRec) (aff : Option AffRec) :
    Except PyError (RawRec × String) :=
  match fldGet pdf.girdle with
  | .error e => .error e
  | .ok (some g) => .ok (pdf, g)
  | .ok none =>
    match aff with
    | none => .ok ({ pdf with girdle := .str "ND" }, "None")
    | some a =>
      if affValid a.griddle griddleSents then
        let g := a.griddle.getD ""
        .ok ({ pdf with girdle := .str g }, g)
      else .ok ({ pdf with girdle := .str "ND" }, "None")

/-- Lines 600-619: the polish text (fancy path: lowercased). -/
def polishPreFancy (pdf : RawRec) (aff : Option AffRec) :
    Except PyError (RawRec × String) :=
  match fldGet pdf.polish with
  | .error e => .error e
  | .ok (some p) => .ok (pdf, pyLower p)
  | .ok none =>
    match aff with
    | none => .ok ({ pdf with polish := .str "ND" }, "None")
    | some a =>
      if affValid a.polish polishSents then
        let v := a.polish.getD ""
        .ok ({ pdf with polish := .str v }, pyLower v)
      else .ok ({ pdf with polish := .str "ND" }, "None")

/-- Lines 621-639: the symmetry text (not lowercased). -/
def symPreFancy (pdf : RawRec) (aff : Option AffRec) :
    Except PyError (RawRec × String) :=
  match fldGet pdf.symmetry with
  | .error e => .error e
  | .ok (some s) => .ok (pdf, s)
  | .ok none =>
    match aff with
    | none => .ok ({ pdf with symmetry := .str "ND" }, "None")
    | some a =>
      if affValid a.symmetry symmetrySents then
        let v := a.symmetry.getD ""
        .ok ({ pdf with symmetry := .str v }, v)
      else .ok ({ pdf with symmetry := .str "ND" }, "None")

/-- Lines 643-646: backfill a `None` carat from the affiliate with no
sentinel filtering at all. -/
def caratFixFancy (pdf : RawRec) (aff : Option AffRec) : Except PyError RawRec :=
  match fldGet pdf.carat with
  | .error e => .error e
  | .ok (some _) => .ok pdf
  | .ok none =>
    match aff with
    | none => .ok pdf
    | some a =>
      match a.carat with
      | some v => .ok { pdf with carat := .str v }
      | none => .ok pdf

/-- Lines 648-664: the culet score against the sub-table selected by the
classified family key `type[0]`. -/
def culetBlockFancy (cfg : Config) (pdf : RawRec) (aff : Option AffRec)
    (t : List String) : Except PyError (RawRec × ℚ) :=
  match pdf.culet with
  | .str c =>
    match t.head? with
    | none => .error .indexError
    | some t0 => .ok (pdf, check_culet t0 c cfg)
  | _ =>
    match aff with
    | none => .ok ({ pdf with culet := .str "ND" }, 0)
    | some a =>
      if affValid a.culet culetSents then
        match t.head? with
        | none => .error .indexError
        | some t0 =>
          let v := a.culet.getD ""
          .ok ({ pdf with culet := .str v }, check_culet t0 v cfg)
      else .ok ({ pdf with culet := .str "ND" }, 0)

/-- Lines 667-679: the conditional length/width-ratio score.  The whole
block sits in a bare `try`: an unbound `ratio` (`NameError`), an `'ND'`
quotient (`ValueError` from `float`), an unparsable or too-short range — all
land in the handler, which assigns score 0.  The key is omitted (`none`)
exactly when `ratio` is bound and `None` (the `else: pass` arm). -/
def lwrScoreBlock (rng : Option (Option (List String))) (lw : LwVal) : Option ℚ :=
  match rng with
  | none => some 0
  | some none => none
  | some (some parts) =>
    match lw with
    | .unbound => some 0
    | .nd => some 0
    | .val x =>
      match pyFloat (parts.getD 0 "") with
      | none => some 0
      | some lo =>
        if x < lo then some 0
        else
          match parts.get? 1 with
          | none => some 0
          | some hiS =>
            match pyFloat hiS with
            | none => some 0
            | some hi => some (if x ≤ hi then 5 else 0)

/-- Lines 681-720: fancy table-size score.  The main arm reads
`req_dict['table']` first (`NameError` when unbound, `TypeError` when the
requirement lookup failed, `KeyError` when the key is missing), strips one
`%`, and treats `'0'`/`'ND'`/`'Not Applicable'` as value 0; the affiliate
arm parses the raw affiliate string with no such special cases. -/
def tableBlockFancy (pdf : RawRec) (aff : Option AffRec)
    (reqrng : Option (Option DiamondsReq × Option (List String))) :
    Except PyError (RawRec × ℚ) :=
  match fldGet pdf.table_size with
  | .error e => .error e
  | .ok (some ts) =>
    match reqrng with
    | none => .error .nameError
    | some (none, _) => .error .typeError
    | some (some req, _) =>
      match req.table with
      | none => .error .keyError
      | some tb =>
        let parts := pySplit tb "-"
        let ts1 := (pySplit ts "%").getD 0 ""
        let pdf := { pdf with table_size := .str ts1 }
        if ts1 = "0" || ts1 = "ND" || ts1 = "Not Applicable" then
          (rangeTest 0 parts).map (fun s => (pdf, s))
        else
          match findDigi ts1 with
          | none => .error .indexError
          | some x => (rangeTest x parts).map (fun s => (pdf, s))
  | .ok none =>
    match aff with
    | none => .ok ({ pdf with table_size := .str "ND" }, 0)
    | some a =>
      if affValid a.table_size tableSents then
        let v := a.table_size.getD ""
        let pdf := { pdf with table_size := .str ((pySplit v "%").getD 0 "") }
        match reqrng with
        | none => .error .nameError
        | some (none, _) => .error .typeError
        | some (some req, _) =>
          match req.table with
          | none => .error .keyError
          | some tb =>
            let parts := pySplit tb "-"
            match findDigi v with
            | none => .error .indexError
            | some x => (rangeTest x parts).map (fun s => (pdf, s))
      else .ok ({ pdf with table_size := .str "ND" }, 0)

/-- Lines 724-753: fancy depth score, same structure as the table one
(without the `%` strip). -/
def depthBlockFancy (pdf : RawRec) (aff : Option AffRec)
    (reqrng : Option (Option DiamondsReq × Option (List String))) :
    Except PyError (RawRec × ℚ) :=
  match fldGet pdf.depth with
  | .error e => .error e
  | .ok (some dv) =>
    match reqrng with
    | none => .error .nameError
    | some (none, _) => .error .typeError
    | some (some req, _) =>
      match req.depth with
      | none => .error .keyError
      | some dp =>
        let parts := pySplit dp "-"
        if dv = "0" || dv = "ND" || dv = "Not Applicable" then
          (rangeTest 0 parts).map (fun s => (pdf, s))
        else
          match findDigi dv with
          | none => .error .indexError
          | some x => (rangeTest x parts).map (fun s => (pdf, s))
  | .ok none =>
    match aff with
    | none => .ok ({ pdf with depth := .str "ND" }, 0)
    | some a =>
      if affValid a.depth depthSents then
        let v := a.depth.getD ""
        let pdf := { pdf with depth := .str v }
        match reqrng with
        | none => .error .nameError
        | some (none, _) => .error .typeError
        | some (some req, _) =>
          match req.depth with
          | none => .error .keyError
          | some dp =>
            let parts := pySplit dp "-"
            match findDigi v with
            | none => .error .indexError
            | some x => (rangeTest x parts).map (fun s => (pdf, s))
      else .ok ({ pdf with depth := .str "ND" }, 0)

/-- Lines 759-761: overwrite the shape with the raw affiliate shape (no
sentinel filter) whenever one is present. -/
def shapeOverwriteFancy (pdf : RawRec) (aff : Option AffRec) : RawRec :=
  match aff with
  | none => pdf
  | some a =>
    match a.shape with
    | some s => { pdf with shape := .str s }
    | none => pdf

/-- Lines 765-769: store the float ratio into the record when a measurement
survived and a range is bound; an unbound `ratio` raises `NameError` here
(outside any `try`), and an `'ND'` quotient cannot reach the `float` call
because it always comes with `measurement = 'ND'`. -/
def lwrStoreBlock (pdf : RawRec)
    (reqrng : Option (Option DiamondsReq × Option (List String))) (lw : LwVal) :
    Except PyError RawRec :=
  match fldGet pdf.measurement with
  | .error e => .error e
  | .ok mv =>
    if mv = some "ND" ∨ mv = none then .ok pdf
    else
      match reqrng with
      | none => .error .nameError
      | some (_, none) => .ok pdf
      | some (_, some _) =>
        match lw with
        | .val x => .ok { pdf with lwrStored := some x }
        | .nd => .error .valueError
        | .unbound => .error .nameError

/-- Lines 771-784: normalise lowercase sentinels in the girdle text, then
score `girdle_gia`, with the heart table when the current shape mentions
heart.  The guard of line 776 is a tautology for any present value, and a
`None` shape would hit `.lower()` and raise `AttributeError`. -/
def girdleScoreFancy (cfg : Config) (pdf : RawRec) (gia : String) :
    Except PyError (RawRec × ℚ) :=
  match fldGet pdf.girdle with
  | .error e => .error e
  | .ok gv =>
    let pdf :=
      if gv = some "none" ∨ gv = some "false" ∨ gv = some "None" then
        { pdf with girdle := .str "ND" }
      else pdf
    if pdf.girdle = Fld.str "ND" ∨ pdf.girdle = Fld.null then .ok (pdf, 0)
    else
      match pdf.shape with
      | .absent => .error .keyError
      | .null => .error .attributeError
      | .str s =>
        if pyIn "heart" (pyLower s) then
          .ok (pdf, assign_girdle_value_for_heart gia cfg)
        else .ok (pdf, assign_girdle_value gia cfg)

/-- Lines 820-824 and 826-830: the fancy-path `'ND'` fixes (both tests are
`is None`, unlike the round path). -/
def fluorNDFixFancy (pdf : RawRec) : Except PyError RawRec :=
  match fldGet pdf.fluorescence with
  | .error e => .error e
  | .ok fv =>
    let pdf := if fv = none then { pdf with fluorescence := .str "ND" } else pdf
    match fldGet pdf.color_grade with
    | .error e => .error e
    | .ok none => .ok { pdf with color_grade := .str "ND" }
    | .ok (some _) => .ok pdf

/-- Lines 806-830: fancy fluorescence, affiliate arm (guarded only by
`is not None`, no truthiness test; reads the affiliate `color_grade` key). -/
def fluorElseFancy (cfg : Config) (pdf : RawRec) (aff : Option AffRec) :
    Except PyError (RawRec × ℚ) :=
  match aff with
  | none => (fluorNDFixFancy pdf).map (fun p => (p, (0 : ℚ)))
  | some a =>
    match a.fluorescence, a.color_grade with
    | some af, some ac =>
      let pdf := { pdf with fluorescence := .str af, color_grade := .str ac }
      .ok (pdf, (check_fluorescence af cfg ac).getD 0)
    | _, _ => (fluorNDFixFancy pdf).map (fun p => (p, (0 : ℚ)))

/-- Lines 798-830: fancy fluorescence score. -/
def fluorBlockFancy (cfg : Config) (pdf : RawRec) (aff : Option AffRec) :
    Except PyError (RawRec × ℚ) :=
  match fldGet pdf.fluorescence with
  | .error e => .error e
  | .ok (some f) =>
    match fldGet pdf.color_grade with
    | .error e => .error e
    | .ok (some c) => .ok (pdf, (check_fluorescence f cfg c).getD 0)
    | .ok none => fluorElseFancy cfg pdf aff
  | .ok none => fluorElseFancy cfg pdf aff

/-- Lines 832-837: fancy symbol score (plain subscript on the key). -/
def symbolBlockFancy (cfg : Config) (pdf : RawRec) : Except PyError (RawRec × ℚ) :=
  match fldGet pdf.key_to_symbol with
  | .error e => .error e
  | .ok (some s) => (check_symbol s cfg.keysToSymbols).map (fun v => (pdf, v))
  | .ok none => .ok (pdf, 5)

/-- Model of `fetch_data` (lines 317-854).  The snapshot `pdf_dc_new` is
taken before the merge (line 323) and returned as the second component; the
shape classification happens on the merged record; `'round'` shapes are
dispatched to `fetch_data_round` with the already-merged record and the
affiliate record again.  The `shape` parameter of the Python function is
`None` at every call site and is omitted. -/
def fetch_data (req_dc : List DiamondEntry) (cfg : Config) (pdf0 : RawRec)
    (aff : Option AffRec) : Except PyError (EngineResult × RawRec × RawRec) :=
  let pdf := mergeAffiliate pdf0 aff
  match pdf.shape with
  | .absent => .ok (.statusFail, pdf0, pdf)
  | .null => .error .attributeError
  | .str sh0 =>
    match classifyFancy sh0 with
    | .error e => .error e
    | .ok (sh, t) =>
      let pdf := { pdf with shape := .str sh }
      if pyIn "round" (pyLower sh) then fetch_data_round req_dc cfg pdf aff
      else
        match lwBlock pdf aff with
        | .error e => .error e
        | .ok (pdf, lw) =>
          match reqRngFancy req_dc sh t with
          | .error e => .error e
          | .ok reqrng =>
            match girdlePreFancy pdf aff with
            | .error e => .error e
            | .ok (pdf, gia) =>
              match polishPreFancy pdf aff with
              | .error e => .error e
              | .ok (pdf, pv) =>
                match symPreFancy pdf aff with
                | .error e => .error e
                | .ok (pdf, sv) =>
                  match caratFixFancy pdf aff with
                  | .error e => .error e
                  | .ok pdf =>
                    match culetBlockFancy cfg pdf aff t with
                    | .error e => .error e
                    | .ok (pdf, cuS) =>
                      let lwrS := lwrScoreBlock (reqrng.map (fun p => p.2)) lw
                      match tableBlockFancy pdf aff reqrng with
                      | .error e => .error e
                      | .ok (pdf, tbS) =>
                        match depthBlockFancy pdf aff reqrng with
                        | .error e => .error e
                        | .ok (pdf, dpS) =>
                          let pdf := shapeOverwriteFancy pdf aff
                          match lwrStoreBlock pdf reqrng lw with
                          | .error e => .error e
                          | .ok pdf =>
                            match girdleScoreFancy cfg pdf gia with
                            | .error e => .error e
                            | .ok (pdf, gdS) =>
                              match polishScoreBlock cfg pdf pv with
                              | .error e => .error e
                              | .ok poS =>
                                match symmetryScoreBlock cfg pdf sv with
                                | .error e => .error e
                                | .ok syS =>
                                  match fluorBlockFancy cfg pdf aff with
                                  | .error e => .error e
                                  | .ok (pdf, flS) =>
                                    match symbolBlockFancy cfg pdf with
                                    | .error e => .error e
                                    | .ok (pdf, ksS) =>
                                      mkComposite
                                        (("culet_score", cuS) ::
                                          ((match lwrS with
                                            | some v => [("length_width_ratio_score", v)]
                                            | none => []) ++
                                           [("table_size_score", tbS),
                                            ("depth_score", dpS),
                                            ("girdle_score", gdS),
                                            ("polish_score", poS),
                                            ("symmetry_score", syS),
                                            ("fluorescence_score", flS),
                                            ("key_to_symbol_score", ksS)]))
                                        pdf0 pdf

/-! ## Derived predicates and reference values -/

/-- Did the engine produce a score record (as opposed to the
`{"Status": ...}` failure value)? -/
def isScore : EngineResult → Bool
  | .score _ => true
  | .statusFail => false

/-- Per-attribute score looked up in an engine result. -/
def resLookup (r : EngineResult) (k : String) : Option ℚ :=
  match r with
  | .score o => o.scores.lookup k
  | .statusFail => none

/-- The 13 attribute keys of the round tally, in insertion order. -/
def roundKeys : List String :=
  ["culet_score", "measurement_score", "pavilion_height_score",
   "pavilion_angle_score", "crown_angle_score", "table_size_score",
   "depth_score", "girdle_score", "polish_score", "symmetry_score",
   "cut_score", "fluorescence_score", "key_to_symbol_score"]

/-- The 8 unconditional attribute keys of the fancy tally. -/
def fancyKeys8 : List String :=
  ["culet_score", "table_size_score", "depth_score", "girdle_score",
   "polish_score", "symmetry_score", "fluorescence_score",
   "key_to_symbol_score"]

/-- The fancy tally with the conditional ratio attribute present. -/
def fancyKeys9 : List String :=
  ["culet_score", "length_width_ratio_score", "table_size_score",
   "depth_score", "girdle_score", "polish_score", "symmetry_score",
   "fluorescence_score", "key_to_symbol_score"]

/-- A value within the score scale. -/
abbrev ValB (q : ℚ) : Prop := 0 ≤ q ∧ q ≤ 5

/-- All configured characteristic scores lie in `[0, 5]` (the `measurement`
rows are excluded: their `value` is a diameter threshold, not a score). -/
abbrev CfgBounded (cfg : Config) : Prop :=
  (∀ r ∈ cfg.girdleThickness, ValB r.value) ∧
  (∀ r ∈ cfg.girdleThicknessHeart, ValB r.value) ∧
  (∀ r ∈ cfg.roundScore, ∀ q ∈ r.tcValues, ValB q) ∧
  (∀ r ∈ cfg.fluorescence, ∀ c ∈ r.tcfg, ValB c.value) ∧
  (∀ r ∈ cfg.keysToSymbols, ∀ q ∈ r.tcValues, ValB q) ∧
  (∀ r ∈ cfg.culet, ∀ c ∈ r.value, ValB c.value) ∧
  (∀ p ∈ cfg.pavAngleCurve, ValB p.2) ∧
  (∀ p ∈ cfg.roundCrownCurve, ValB p.2)

/-- Parse of a `"min-max"` weight range of a `measurement` row. -/
def parseWeight (w : String) : Option (ℚ × ℚ) :=
  let parts := pySplit w "-"
  match pyFloat (parts.getD 0 ""), parts.get? 1 with
  | some lo, some hiS => (pyFloat hiS).map (fun hi => (lo, hi))
  | _, _ => none

/-- Modelled from the spec: one row satisfies the claim's bucket clause when
the carat lies in the row's weight range and the diameter reaches the row's
minimum. -/
def bucketHit (value carat : ℚ) (r : WeightRow) : Bool :=
  match parseWeight r.weight with
  | some (lo, hi) => decide (lo ≤ carat) && decide (carat ≤ hi) && decide (r.value ≤ value)
  | none => false

/-- Modelled from the spec: the measurement score claimed by C8 — 5 when
some bucket is hit or when `carat ≥ 2.0` and `diameter ≥ 8` (regardless of
any bucket), else 0. -/
def measSpecScore (value carat : ℚ) (rows : List WeightRow) : ℚ :=
  if rows.any (bucketHit value carat) || (decide (2 ≤ carat) && decide (8 ≤ value)) then 5
  else 0

/-- Per-field condition under which the affiliate merge provably changes
nothing: every field is either `None` or rejected by that field's own
sentinel filter (including the four round-only fields). -/
abbrev AffIneffective (a : AffRec) : Prop :=
  affValid a.shape shapeSents = false ∧
  affValid a.carat caratSents = false ∧
  affValid a.table_size tableSents = false ∧
  affValid a.griddle griddleSents = false ∧
  affValid a.depth depthSents = false ∧
  affValid a.measurement measSents = false ∧
  affValid a.culet culetSents = false ∧
  affValid a.color colorSents = false ∧
  affValid a.polish polishSents = false ∧
  affValid a.symmetry symmetrySents = false ∧
  affValid a.fluorescence fluorSents = false ∧
  affValid a.cut cutSents = false ∧
  affValid a.pavilion_height pavHeightSents = false ∧
  affValid a.pavilion_angle pavAngleSents = false ∧
  affValid a.crown_height crownHeightSents = false ∧
  affValid a.crown_angle crownAngleSents = false

/-! ## Concrete fixtures

A pear and a round shape requirement and a small but fully populated
characteristic configuration, together with four concrete certificate
records used to evaluate the engine at specific inputs. -/

/-- A pear-shape requirement. -/
def pearReq : DiamondEntry :=
  ⟨"pear", ⟨some "1.45-1.75", some "53-65", some "55-70", none, some "40-48", none⟩⟩

/-- A round-shape requirement (with the `crown_angle` window the round path
needs). -/
def roundReq : DiamondEntry :=
  ⟨"round", ⟨none, some "52-62", some "58-64", some "40.6-41", some "42.5-44",
    some "31.5-36.5"⟩⟩

/-- The shape-requirement list of the fixtures. -/
def reqs0 : List DiamondEntry := [pearReq, roundReq]

/-- The characteristic configuration of the fixtures. -/
def cfg0 : Config :=
  ⟨[⟨"F", [⟨"default", 5⟩, ⟨"Faint", 4⟩]⟩],
   [⟨"Medium", 5⟩, ⟨"Thin", 4⟩],
   [⟨"Medium", 5⟩],
   [⟨"Excellent", [5, 5, 5]⟩, ⟨"Very Good", [4, 4, 4]⟩],
   [⟨"CLOUD", [3]⟩, ⟨"FEATHER", [2]⟩, ⟨"GROWTH REMNANT", [1]⟩,
    ⟨"INDENTED NATURAL", [2]⟩, ⟨"TWINNING WISP", [4]⟩],
   [⟨"round", [⟨"None", 5⟩, ⟨"Small", 4⟩]⟩, ⟨"pear", [⟨"None", 5⟩]⟩],
   [⟨"0.30-0.39", 21 / 5⟩, ⟨"2.0-2.5", 8⟩],
   [("38-40.5", 3), ("41.1-43", 2)],
   [("25-31.4", 2), ("36.6-40", 2)]⟩

/-- A record whose every key is present with value `None`. -/
def recNull : RawRec :=
  { shape := .null, carat := .null, color_grade := .null, cut := .null,
    polish := .null, symmetry := .null, fluorescence := .null, girdle := .null,
    culet := .null, measurement := .null, table_size := .null, depth := .null,
    crown_angle := .null, crown_height := .null, pavilion_angle := .null,
    pavilion_height := .null, star_length := .null, lower_half_length := .null,
    key_to_symbol := .null }

/-- The spec's scenario record: a shape label matching no classification
rule. -/
def rec1 : RawRec := { recNull with shape := .str "Unidentifiable Blob" }

/-- A pear record whose measurement string cannot be parsed into a ratio. -/
def rec2 : RawRec :=
  { recNull with shape := .str "Pear", measurement := .str "abc" }

/-- A round record whose pavilion height text contains no digits. -/
def rec3 : RawRec :=
  { recNull with shape := .str "Round", pavilion_height := .str "abc" }

/-- A fully populated round record inside every window of `roundReq`. -/
def rec4 : RawRec :=
  { recNull with
    shape := .str "Round"
    measurement := .str "4.3x2"
    carat := .str "0.31"
    table_size := .str "58%"
    depth := .str "61.5%"
    girdle := .str "Medium"
    polish := .str "Excellent"
    symmetry := .str "Excellent"
    cut := .str "Excellent"
    fluorescence := .str "None"
    color_grade := .str "F"
    culet := .str "None"
    key_to_symbol := .str ""
    pavilion_height := .str "43.0"
    pavilion_angle := .str "40.8"
    crown_angle := .str "34.5" }

/-- A record with no `shape` key at all. -/
def recNoShape : RawRec := { recNull with shape := .absent }

/-- An affiliate record whose every field is the sentinel spelling
`"none"`. -/
def affAllNoneStr : AffRec :=
  ⟨some "none", some "none", some "none", some "none", some "none",
   some "none", some "none", some "none", some "none", some "none",
   some "none", some "none", some "none", some "none", some "none",
   some "none", some "none"⟩

/-- An affiliate record whose every field is Python `None`. -/
def affAllNull : AffRec :=
  ⟨none, none, none, none, none, none, none, none, none, none, none, none,
   none, none, none, none, none⟩

/-- The score record the engine produces for `rec1`. -/
def out1 : ScoreOut :=
  ⟨[("culet_score", 0), ("table_size_score", 0), ("depth_score", 0),
    ("girdle_score", 0), ("polish_score", 0), ("symmetry_score", 0),
    ("fluorescence_score", 0), ("key_to_symbol_score", 5)],
   25 / 2, "12.5%"⟩

/-- The score record the engine produces for `rec4`. -/
def out4 : ScoreOut :=
  ⟨[("culet_score", 5), ("measurement_score", 5), ("pavilion_height_score", 5),
    ("pavilion_angle_score", 5), ("crown_angle_score", 5),
    ("table_size_score", 5), ("depth_score", 5), ("girdle_score", 5),
    ("polish_score", 5), ("symmetry_score", 5), ("cut_score", 5),
    ("fluorescence_score", 5), ("key_to_symbol_score", 5)],
   100, "100.0%"⟩

/-- The final state of `rec4` after the round path. -/
def recF4 : RawRec :=
  { rec4 with
    crown_height := .str "Not Applicable"
    star_length := .str "Not Applicable"
    lower_half_length := .str "Not Applicable" }

/-- The symbol table of the C5 failing input: `GROWTH REMNANT` configured
with score 1. -/
def symTbl5 : List SymRow := [⟨"GROWTH REMNANT", [1]⟩]

/-- The final state of `rec1` after the fancy path (`dictNp` fills every
unscored key with `"ND"` or `"Not Applicable"`). -/
def rec1F : RawRec :=
  { rec1 with
    color_grade := .str "ND"
    cut := .str "Not Applicable"
    polish := .str "ND"
    symmetry := .str "ND"
    fluorescence := .str "ND"
    girdle := .str "ND"
    culet := .str "ND"
    measurement := .str "ND"
    table_size := .str "ND"
    depth := .str "ND"
    crown_angle := .str "Not Applicable"
    crown_height := .str "Not Applicable"
    pavilion_angle := .str "Not Applicable"
    pavilion_height := .str "Not Applicable"
    star_length := .str "Not Applicable"
    lower_half_length := .str "Not Applicable" }

/-- The score record the engine produces for `rec2`: nine attributes, the
ratio key present with score 0 although the ratio computation failed. -/
def out2 : ScoreOut :=
  ⟨[("culet_score", 0), ("length_width_ratio_score", 0),
    ("table_size_score", 0), ("depth_score", 0), ("girdle_score", 0),
    ("polish_score", 0), ("symmetry_score", 0), ("fluorescence_score", 0),
    ("key_to_symbol_score", 5)],
   100 / 9, "11.11%"⟩

/-- The final state of `rec2` after the fancy path: the caller's record,
mutated in place (`measurement` was overwritten with `"ND"`, the unscored
keys were filled). -/
def rec2F : RawRec :=
  { rec2 with
    color_grade := .str "ND"
    cut := .str "Not Applicable"
    polish := .str "ND"
    symmetry := .str "ND"
    fluorescence := .str "ND"
    girdle := .str "ND"
    culet := .str "ND"
    measurement := .str "ND"
    table_size := .str "ND"
    depth := .str "ND"
    crown_angle := .str "Not Applicable"
    crown_height := .str "Not Applicable"
    pavilion_angle := .str "Not Applicable"
    pavilion_height := .str "Not Applicable"
    star_length := .str "Not Applicable"
    lower_half_length := .str "Not Applicable" }

/-! ## Helper lemmas -/

theorem updIf_invalid {c : Fld} {v : Option String} {s : List String}
    (h : affValid v s = false) : updIf c v s = c := by
  cases v with
  | none => rfl
  | some a =>
    simp only [affValid] at h
    have hc : s.contains a = true := by
      cases hcc : s.contains a
      · rw [hcc] at h; simp at h
      · rfl
    show (if s.contains a = true then c else Fld.str a) = c
    rw [if_pos hc]

theorem exceptMap_ok {ε α β : Type} {f : α → β} {e : Except ε α} {b : β}
    (h : Except.map f e = .ok b) : ∃ a, e = .ok a ∧ f a = b := by
  cases e with
  | error err => simp [Except.map] at h
  | ok a =>
    simp only [Except.map, Except.ok.injEq] at h
    exact ⟨a, rfl, h⟩

theorem valB_zero : ValB 0 := by norm_num [ValB]

theorem valB_five : ValB 5 := by norm_num [ValB]

theorem rangeTest_cases {x : ℚ} {parts : List String} {s : ℚ}
    (h : rangeTest x parts = .ok s) : s = 0 ∨ s = 5 := by
  unfold rangeTest at h
  split at h
  · exact absurd h (by simp)
  · split at h
    · left; exact (by simpa using h.symm)
    · split at h
      · exact absurd h (by simp)
      · split at h
        · exact absurd h (by simp)
        · simp only [Except.ok.injEq] at h
          subst h
          split
          · right; rfl
          · left; rfl

theorem curveLookup_bound {x : ℚ} {curve : List (String × ℚ)} {s : ℚ}
    (hb : ∀ p ∈ curve, ValB p.2) (h : curveLookup x curve = .ok s) : ValB s := by
  induction curve with
  | nil =>
    simp only [curveLookup, Except.ok.injEq] at h
    subst h; exact valB_zero
  | cons p rest ih =>
    unfold curveLookup at h
    dsimp only at h
    split at h
    · split at h
      · exact absurd h (by simp)
      · split at h
        · exact ih (fun q hq => hb q (by simp [hq])) h
        · split at h
          · exact absurd h (by simp)
          · split at h
            · simp only [Except.ok.injEq] at h
              subst h; exact hb p (by simp)
            · exact ih (fun q hq => hb q (by simp [hq])) h
    · split at h
      · exact absurd h (by simp)
      · split at h
        · simp only [Except.ok.injEq] at h
          subst h; exact hb p (by simp)
        · exact ih (fun q hq => hb q (by simp [hq])) h

theorem roundAngleScore_bound {x : ℚ} {parts : List String}
    {curve : List (String × ℚ)} {s : ℚ} (hb : ∀ p ∈ curve, ValB p.2)
    (h : roundAngleScore x parts curve = .ok s) : ValB s := by
  unfold roundAngleScore at h
  split at h
  · exact absurd h (by simp)
  · split at h
    · exact curveLookup_bound hb h
    · split at h
      · exact absurd h (by simp)
      · split at h
        · exact absurd h (by simp)
        · split at h
          · simp only [Except.ok.injEq] at h
            subst h; exact valB_five
          · exact curveLookup_bound hb h

theorem foldl_min_bound {l : List ℚ} {x : ℚ} (hx : ValB x)
    (hl : ∀ q ∈ l, ValB q) : ValB (l.foldl min x) := by
  induction l generalizing x with
  | nil => exact hx
  | cons y rest ih =>
    have hy : ValB y := hl y (by simp)
    exact ih ⟨le_min hx.1 hy.1, le_trans (min_le_left x y) hx.2⟩
      (fun q hq => hl q (by simp [hq]))

theorem minListD_bound {l : List ℚ} (hl : ∀ q ∈ l, ValB q) :
    ValB (minListD l 5) := by
  cases l with
  | nil => exact valB_five
  | cons x rest =>
    exact foldl_min_bound (hl x (by simp)) (fun q hq => hl q (by simp [hq]))

theorem symScore_mem {tbl : List SymRow} {key : String} {v : ℚ}
    (h : symScore tbl key = .ok (some v)) : ∃ r ∈ tbl, v ∈ r.tcValues := by
  unfold symScore at h
  cases hf : tbl.find? (fun r => r.data_type = key) with
  | none => rw [hf] at h; simp at h
  | some r =>
    rw [hf] at h
    dsimp only at h
    cases hg : r.tcValues.get? 0 with
    | none => rw [hg] at h; simp at h
    | some q =>
      rw [hg] at h
      simp only [Except.ok.injEq, Option.some.injEq] at h
      subst h
      exact ⟨r, List.mem_of_find?_eq_some hf, List.get?_mem hg⟩

theorem symLoop_mem {tbl : List SymRow} {l : List String} {flag : Bool}
    {scores : List ℚ} (h : symLoop tbl flag l = .ok scores) :
    ∀ q ∈ scores, ∃ r ∈ tbl, q ∈ r.tcValues := by
  induction l generalizing flag scores with
  | nil =>
    simp only [symLoop, Except.ok.injEq] at h
    subst h; simp
  | cons d rest ih =>
    unfold symLoop at h
    dsimp only at h
    iterate 8 (all_goals (try split at h))
    all_goals
      first
      | exact Except.noConfusion h
      | exact ih h
      | (simp only [Except.ok.injEq] at h
         subst h
         intro q hq
         rcases List.mem_cons.mp hq with hq | hq
         · subst hq; exact symScore_mem (by assumption)
         · exact ih (by assumption) q hq)

theorem check_symbol_bound {raw : String} {tbl : List SymRow} {s : ℚ}
    (hb : ∀ r ∈ tbl, ∀ q ∈ r.tcValues, ValB q)
    (h : check_symbol raw tbl = .ok s) : ValB s := by
  unfold check_symbol at h
  dsimp only at h
  iterate 6 (all_goals (try split at h))
  all_goals
    first
    | exact Except.noConfusion h
    | (simp only [Except.ok.injEq] at h
       subst h
       first
       | exact valB_five
       | exact hb _ (List.mem_of_find?_eq_some (by assumption)) _
           (List.get?_mem (by assumption))
       | (apply minListD_bound
          intro q hq
          obtain ⟨r, hr, hqr⟩ := symLoop_mem (by assumption) q hq
          exact hb r hr q hqr))

theorem check_polish_bound {v : String} {cfg : Config} {s : ℚ}
    (hb : ∀ r ∈ cfg.roundScore, ∀ q ∈ r.tcValues, ValB q)
    (h : check_polish v cfg = .ok s) : ValB s := by
  unfold check_polish at h
  split at h
  · simp only [Except.ok.injEq] at h
    subst h; exact valB_zero
  · split at h
    · simp only [Except.ok.injEq] at h
      subst h
      exact hb _ (List.mem_of_find?_eq_some (by assumption)) _
        (List.get?_mem (by assumption))
    · exact absurd h (by simp)

theorem check_symmetry_bound {v : String} {cfg : Config} {s : ℚ}
    (hb : ∀ r ∈ cfg.roundScore, ∀ q ∈ r.tcValues, ValB q)
    (h : check_symmetry v cfg = .ok s) : ValB s := by
  unfold check_symmetry at h
  split at h
  · simp only [Except.ok.injEq] at h
    subst h; exact valB_zero
  · split at h
    · simp only [Except.ok.injEq] at h
      subst h
      exact hb _ (List.mem_of_find?_eq_some (by assumption)) _
        (List.get?_mem (by assumption))
    · exact absurd h (by simp)

theorem check_cut_grade_bound {v : String} {cfg : Config} {s : ℚ}
    (hb : ∀ r ∈ cfg.roundScore, ∀ q ∈ r.tcValues, ValB q)
    (h : check_cut_grade v cfg = .ok s) : ValB s := by
  unfold check_cut_grade at h
  split at h
  · simp only [Except.ok.injEq] at h
    subst h; exact valB_zero
  · split at h
    · simp only [Except.ok.injEq] at h
      subst h
      exact hb _ (List.mem_of_find?_eq_some (by assumption)) _
        (List.get?_mem (by assumption))
    · exact absurd h (by simp)

theorem check_fluorescence_bound {f c : String} {cfg : Config}
    (hb : ∀ r ∈ cfg.fluorescence, ∀ x ∈ r.tcfg, ValB x.value) :
    ValB ((check_fluorescence f cfg c).getD 0) := by
  cases hcf : check_fluorescence f cfg c with
  | none => exact valB_zero
  | some v =>
    simp only [Option.getD_some]
    unfold check_fluorescence at hcf
    dsimp only at hcf
    iterate 5 (all_goals (try split at hcf))
    all_goals
      first
      | exact Option.noConfusion hcf
      | (simp only [Option.some.injEq] at hcf
         subst hcf
         rename_i x2 heq2
         exact hb _ (List.mem_of_find?_eq_some (by assumption)) x2
           (List.mem_of_find?_eq_some heq2))

theorem assign_girdle_value_bound {v : String} {cfg : Config}
    (hb : ∀ r ∈ cfg.girdleThickness, ValB r.value) :
    ValB (assign_girdle_value v cfg) := by
  unfold assign_girdle_value
  split
  · exact hb _ (List.mem_of_find?_eq_some (by assumption))
  · exact valB_zero

theorem assign_girdle_value_for_heart_bound {v : String} {cfg : Config}
    (hb : ∀ r ∈ cfg.girdleThicknessHeart, ValB r.value) :
    ValB (assign_girdle_value_for_heart v cfg) := by
  unfold assign_girdle_value_for_heart
  split
  · exact hb _ (List.mem_of_find?_eq_some (by assumption))
  · exact valB_zero

theorem checkCuletGo_bound {sh cv : String} {rows : List CuletShape}
    (hb : ∀ r ∈ rows, ∀ x ∈ r.value, ValB x.value) :
    ValB (checkCuletGo sh cv rows) := by
  induction rows with
  | nil => exact valB_zero
  | cons r rest ih =>
    unfold checkCuletGo
    split
    · split
      · exact hb r (by simp) _ (List.mem_of_find?_eq_some (by assumption))
      · exact ih (fun x hx => hb x (by simp [hx]))
    · exact ih (fun x hx => hb x (by simp [hx]))

theorem check_culet_bound {sh cv : String} {cfg : Config}
    (hb : ∀ r ∈ cfg.culet, ∀ x ∈ r.value, ValB x.value) :
    ValB (check_culet sh cv cfg) :=
  checkCuletGo_bound hb

theorem amvLoop_cases {v c : ℚ} {rows : List WeightRow} {acc s : ℚ}
    (hacc : acc = 0 ∨ acc = 5) (h : amvLoop v c rows acc = .ok s) :
    s = 0 ∨ s = 5 := by
  induction rows generalizing acc with
  | nil =>
    simp only [amvLoop, Except.ok.injEq] at h
    subst h; exact hacc
  | cons r rest ih =>
    unfold amvLoop at h
    dsimp only at h
    split at h
    · exact absurd h (by simp)
    · split at h
      · exact absurd h (by simp)
      · split at h
        · exact absurd h (by simp)
        · split at h
          · right; exact (by simpa using h.symm)
          · refine ih ?_ h
            split
            · right; rfl
            · exact hacc

theorem assign_measurement_value_cases {v c : ℚ} {rows : List WeightRow}
    {s : ℚ} (h : assign_measurement_value v c rows = .ok s) : s = 0 ∨ s = 5 :=
  amvLoop_cases (Or.inl rfl) h

theorem valB_of_cases {s : ℚ} (h : s = 0 ∨ s = 5) : ValB s := by
  rcases h with rfl | rfl
  · exact valB_zero
  · exact valB_five

theorem pavHeightBlock_cases {rr : RoundRanges} {pdf : RawRec}
    {aff : Option AffRec} {p : RawRec} {s : ℚ}
    (h : pavHeightBlock rr pdf aff = .ok (p, s)) : s = 0 ∨ s = 5 := by
  unfold pavHeightBlock pavHeightElse at h
  dsimp only at h
  iterate 7 (all_goals (try split at h))
  all_goals
    first
    | exact Except.noConfusion h
    | (simp only [Except.ok.injEq, Prod.mk.injEq] at h
       exact Or.inl h.2.symm)
    | (obtain ⟨a, ha, hfa⟩ := exceptMap_ok h
       simp only [Prod.mk.injEq] at hfa
       rcases hfa with ⟨-, rfl⟩
       exact rangeTest_cases ha)

theorem pavAngleBlock_bound {cfg : Config} {rr : RoundRanges} {pdf : RawRec}
    {aff : Option AffRec} {p : RawRec} {s : ℚ}
    (hb : ∀ q ∈ cfg.pavAngleCurve, ValB q.2)
    (h : pavAngleBlock cfg rr pdf aff = .ok (p, s)) : ValB s := by
  unfold pavAngleBlock pavAngleElse at h
  dsimp only at h
  iterate 7 (all_goals (try split at h))
  all_goals
    first
    | exact Except.noConfusion h
    | (simp only [Except.ok.injEq, Prod.mk.injEq] at h
       rcases h with ⟨-, rfl⟩
       exact valB_zero)
    | (obtain ⟨a, ha, hfa⟩ := exceptMap_ok h
       simp only [Prod.mk.injEq] at hfa
       rcases hfa with ⟨-, rfl⟩
       exact roundAngleScore_bound hb ha)

theorem crownAngleBlock_bound {cfg : Config} {rr : RoundRanges} {pdf : RawRec}
    {aff : Option AffRec} {p : RawRec} {s : ℚ}
    (hb : ∀ q ∈ cfg.roundCrownCurve, ValB q.2)
    (h : crownAngleBlock cfg rr pdf aff = .ok (p, s)) : ValB s := by
  unfold crownAngleBlock crownAngleElse at h
  dsimp only at h
  iterate 8 (all_goals (try split at h))
  all_goals
    first
    | exact Except.noConfusion h
    | (simp only [Except.ok.injEq, Prod.mk.injEq] at h
       rcases h with ⟨-, rfl⟩
       exact valB_zero)
    | (obtain ⟨a, ha, hfa⟩ := exceptMap_ok h
       simp only [Prod.mk.injEq] at hfa
       rcases hfa with ⟨-, rfl⟩
       exact roundAngleScore_bound hb ha)

theorem tableBlockRound_cases {rr : RoundRanges} {pdf : RawRec}
    {aff : Option AffRec} {p : RawRec} {s : ℚ}
    (h : tableBlockRound rr pdf aff = .ok (p, s)) : s = 0 ∨ s = 5 := by
  unfold tableBlockRound at h
  dsimp only at h
  iterate 7 (all_goals (try split at h))
  all_goals
    first
    | exact Except.noConfusion h
    | (simp only [Except.ok.injEq, Prod.mk.injEq] at h
       exact Or.inl h.2.symm)
    | (obtain ⟨a, ha, hfa⟩ := exceptMap_ok h
       simp only [Prod.mk.injEq] at hfa
       rcases hfa with ⟨-, rfl⟩
       exact rangeTest_cases ha)

theorem depthBlockRound_cases {rr : RoundRanges} {pdf : RawRec}
    {aff : Option AffRec} {p : RawRec} {s : ℚ}
    (h : depthBlockRound rr pdf aff = .ok (p, s)) : s = 0 ∨ s = 5 := by
  unfold depthBlockRound at h
  dsimp only at h
  iterate 7 (all_goals (try split at h))
  all_goals
    first
    | exact Except.noConfusion h
    | (simp only [Except.ok.injEq, Prod.mk.injEq] at h
       exact Or.inl h.2.symm)
    | (obtain ⟨a, ha, hfa⟩ := exceptMap_ok h
       simp only [Prod.mk.injEq] at hfa
       rcases hfa with ⟨-, rfl⟩
       exact rangeTest_cases ha)

theorem girdleScoreRound_bound {cfg : Config} {pdf : RawRec} {gia : String}
    {p : RawRec} {s : ℚ} (hb : ∀ r ∈ cfg.girdleThickness, ValB r.value)
    (h : girdleScoreRound cfg pdf gia = .ok (p, s)) : ValB s := by
  unfold girdleScoreRound at h
  dsimp only at h
  iterate 5 (all_goals (try split at h))
  all_goals
    first
    | exact Except.noConfusion h
    | (simp only [Except.ok.injEq, Prod.mk.injEq] at h
       rcases h with ⟨-, rfl⟩
       first
       | exact valB_zero
       | exact assign_girdle_value_bound hb)

theorem polishScoreBlock_bound {cfg : Config} {pdf : RawRec} {pv : String}
    {s : ℚ} (hb : ∀ r ∈ cfg.roundScore, ∀ q ∈ r.tcValues, ValB q)
    (h : polishScoreBlock cfg pdf pv = .ok s) : ValB s := by
  unfold polishScoreBlock at h
  iterate 3 (all_goals (try split at h))
  all_goals
    first
    | exact Except.noConfusion h
    | (simp only [Except.ok.injEq] at h
       subst h
       exact valB_zero)
    | exact check_polish_bound hb h

theorem symmetryScoreBlock_bound {cfg : Config} {pdf : RawRec} {sv : String}
    {s : ℚ} (hb : ∀ r ∈ cfg.roundScore, ∀ q ∈ r.tcValues, ValB q)
    (h : symmetryScoreBlock cfg pdf sv = .ok s) : ValB s := by
  unfold symmetryScoreBlock at h
  iterate 3 (all_goals (try split at h))
  all_goals
    first
    | exact Except.noConfusion h
    | (simp only [Except.ok.injEq] at h
       subst h
       exact valB_zero)
    | exact check_symmetry_bound hb h

theorem cutScoreBlock_bound {cfg : Config} {pdf : RawRec} {cv : String}
    {s : ℚ} (hb : ∀ r ∈ cfg.roundScore, ∀ q ∈ r.tcValues, ValB q)
    (h : cutScoreBlock cfg pdf cv = .ok s) : ValB s := by
  unfold cutScoreBlock at h
  iterate 3 (all_goals (try split at h))
  all_goals
    first
    | exact Except.noConfusion h
    | (simp only [Except.ok.injEq] at h
       subst h
       exact valB_zero)
    | exact check_cut_grade_bound hb h

theorem fluorBlockRound_bound {cfg : Config} {pdf : RawRec}
    {aff : Option AffRec} {p : RawRec} {s : ℚ}
    (hb : ∀ r ∈ cfg.fluorescence, ∀ x ∈ r.tcfg, ValB x.value)
    (h : fluorBlockRound cfg pdf aff = .ok (p, s)) : ValB s := by
  unfold fluorBlockRound fluorElseRound at h
  dsimp only at h
  iterate 7 (all_goals (try split at h))
  all_goals
    first
    | exact Except.noConfusion h
    | (simp only [Except.ok.injEq, Prod.mk.injEq] at h
       rcases h with ⟨-, rfl⟩
       exact check_fluorescence_bound hb)
    | (obtain ⟨a, ha, hfa⟩ := exceptMap_ok h
       simp only [Prod.mk.injEq] at hfa
       rcases hfa with ⟨-, rfl⟩
       exact valB_zero)

theorem symbolBlock_bound {cfg : Config} {pdf : RawRec} {p : RawRec} {s : ℚ}
    (hb : ∀ r ∈ cfg.keysToSymbols, ∀ q ∈ r.tcValues, ValB q)
    (h : symbolBlock cfg pdf = .ok (p, s)) : ValB s := by
  unfold symbolBlock at h
  iterate 2 (all_goals (try split at h))
  all_goals
    first
    | exact Except.noConfusion h
    | (simp only [Except.ok.injEq, Prod.mk.injEq] at h
       rcases h with ⟨-, rfl⟩
       exact valB_five)
    | (obtain ⟨a, ha, hfa⟩ := exceptMap_ok h
       simp only [Prod.mk.injEq] at hfa
       rcases hfa with ⟨-, rfl⟩
       exact check_symbol_bound hb ha)

theorem culetBlockRound_bound {cfg : Config} {pdf : RawRec}
    {aff : Option AffRec} (hb : ∀ r ∈ cfg.culet, ∀ x ∈ r.value, ValB x.value) :
    ValB (culetBlockRound cfg pdf aff).2 := by
  unfold culetBlockRound
  iterate 3 (all_goals (try split))
  all_goals
    first
    | exact check_culet_bound hb
    | exact valB_zero

theorem measBlockRound_cases {cfg : Config} {pdf : RawRec}
    {lastMea : Option String} {carat : ℚ ⊕ String} :
    (measBlockRound cfg pdf lastMea carat).2 = 0 ∨
      (measBlockRound cfg pdf lastMea carat).2 = 5 := by
  unfold measBlockRound
  iterate 5 (all_goals (try split))
  all_goals
    first
    | exact Or.inl rfl
    | (rename_i hamv
       exact assign_measurement_value_cases hamv)

theorem lwrScoreBlock_cases {rng : Option (Option (List String))} {lw : LwVal}
    {v : ℚ} (h : lwrScoreBlock rng lw = some v) : v = 0 ∨ v = 5 := by
  unfold lwrScoreBlock at h
  iterate 6 (all_goals (try split at h))
  all_goals
    first
    | exact Option.noConfusion h
    | (simp only [Option.some.injEq] at h
       subst h
       first
       | exact Or.inl rfl
       | (split
          · exact Or.inr rfl
          · exact Or.inl rfl))

theorem culetBlockFancy_bound {cfg : Config} {pdf : RawRec}
    {aff : Option AffRec} {t : List String} {p : RawRec} {s : ℚ}
    (hb : ∀ r ∈ cfg.culet, ∀ x ∈ r.value, ValB x.value)
    (h : culetBlockFancy cfg pdf aff t = .ok (p, s)) : ValB s := by
  unfold culetBlockFancy at h
  dsimp only at h
  iterate 5 (all_goals (try split at h))
  all_goals
    first
    | exact Except.noConfusion h
    | (simp only [Except.ok.injEq, Prod.mk.injEq] at h
       rcases h with ⟨-, rfl⟩
       first
       | exact valB_zero
       | exact check_culet_bound hb)

theorem tableBlockFancy_cases {pdf : RawRec} {aff : Option AffRec}
    {reqrng : Option (Option DiamondsReq × Option (List String))} {p : RawRec}
    {s : ℚ} (h : tableBlockFancy pdf aff reqrng = .ok (p, s)) :
    s = 0 ∨ s = 5 := by
  unfold tableBlockFancy at h
  dsimp only at h
  iterate 8 (all_goals (try split at h))
  all_goals
    first
    | exact Except.noConfusion h
    | (simp only [Except.ok.injEq, Prod.mk.injEq] at h
       exact Or.inl h.2.symm)
    | (obtain ⟨a, ha, hfa⟩ := exceptMap_ok h
       simp only [Prod.mk.injEq] at hfa
       rcases hfa with ⟨-, rfl⟩
       exact rangeTest_cases ha)

theorem depthBlockFancy_cases {pdf : RawRec} {aff : Option AffRec}
    {reqrng : Option (Option DiamondsReq × Option (List String))} {p : RawRec}
    {s : ℚ} (h : depthBlockFancy pdf aff reqrng = .ok (p, s)) :
    s = 0 ∨ s = 5 := by
  unfold depthBlockFancy at h
  dsimp only at h
  iterate 8 (all_goals (try split at h))
  all_goals
    first
    | exact Except.noConfusion h
    | (simp only [Except.ok.injEq, Prod.mk.injEq] at h
       exact Or.inl h.2.symm)
    | (obtain ⟨a, ha, hfa⟩ := exceptMap_ok h
       simp only [Prod.mk.injEq] at hfa
       rcases hfa with ⟨-, rfl⟩
       exact rangeTest_cases ha)

set_option maxHeartbeats 1000000 in
theorem girdleScoreFancy_bound {cfg : Config} {pdf : RawRec} {gia : String}
    {p : RawRec} {s : ℚ} (hb : ∀ r ∈ cfg.girdleThickness, ValB r.value)
    (hbh : ∀ r ∈ cfg.girdleThicknessHeart, ValB r.value)
    (h : girdleScoreFancy cfg pdf gia = .ok (p, s)) : ValB s := by
  unfold girdleScoreFancy at h
  dsimp only at h
  iterate 6 (all_goals (try split at h))
  all_goals
    first
    | exact Except.noConfusion h
    | (simp only [Except.ok.injEq, Prod.mk.injEq] at h
       rcases h with ⟨-, rfl⟩
       first
       | exact valB_zero
       | exact assign_girdle_value_bound hb
       | exact assign_girdle_value_for_heart_bound hbh)

theorem fluorBlockFancy_bound {cfg : Config} {pdf : RawRec}
    {aff : Option AffRec} {p : RawRec} {s : ℚ}
    (hb : ∀ r ∈ cfg.fluorescence, ∀ x ∈ r.tcfg, ValB x.value)
    (h : fluorBlockFancy cfg pdf aff = .ok (p, s)) : ValB s := by
  unfold fluorBlockFancy fluorElseFancy at h
  dsimp only at h
  iterate 6 (all_goals (try split at h))
  all_goals
    first
    | exact Except.noConfusion h
    | (simp only [Except.ok.injEq, Prod.mk.injEq] at h
       rcases h with ⟨-, rfl⟩
       exact check_fluorescence_bound hb)
    | (obtain ⟨a, ha, hfa⟩ := exceptMap_ok h
       simp only [Prod.mk.injEq] at hfa
       rcases hfa with ⟨-, rfl⟩
       exact valB_zero)

theorem symbolBlockFancy_bound {cfg : Config} {pdf : RawRec} {p : RawRec}
    {s : ℚ} (hb : ∀ r ∈ cfg.keysToSymbols, ∀ q ∈ r.tcValues, ValB q)
    (h : symbolBlockFancy cfg pdf = .ok (p, s)) : ValB s := by
  unfold symbolBlockFancy at h
  iterate 3 (all_goals (try split at h))
  all_goals
    first
    | exact Except.noConfusion h
    | (simp only [Except.ok.injEq, Prod.mk.injEq] at h
       rcases h with ⟨-, rfl⟩
       exact valB_five)
    | (obtain ⟨a, ha, hfa⟩ := exceptMap_ok h
       simp only [Prod.mk.injEq] at hfa
       rcases hfa with ⟨-, rfl⟩
       exact check_symbol_bound hb ha)

theorem composite_percent_bound {l : List (String × ℚ)}
    (h5 : ∀ p ∈ l, ValB p.2) (hne : l ≠ []) :
    0 ≤ (l.map Prod.snd).sum / ((l.length : ℚ) * 5) * 100 ∧
      (l.map Prod.snd).sum / ((l.length : ℚ) * 5) * 100 ≤ 100 := by
  have hlenpos : 0 < l.length := List.length_pos.mpr hne
  have hlen : (0 : ℚ) < (l.length : ℚ) * 5 := by
    have hc : (0 : ℚ) < (l.length : ℚ) := by exact_mod_cast hlenpos
    nlinarith
  have hsum0 : 0 ≤ (l.map Prod.snd).sum := by
    apply List.sum_nonneg
    intro x hx
    obtain ⟨q, hq, rfl⟩ := List.mem_map.mp hx
    exact (h5 q hq).1
  have hsum5 : (l.map Prod.snd).sum ≤ (l.length : ℚ) * 5 := by
    have := List.sum_le_card_nsmul (l.map Prod.snd) 5 (by
      intro x hx
      obtain ⟨q, hq, rfl⟩ := List.mem_map.mp hx
      exact (h5 q hq).2)
    simpa [List.length_map, nsmul_eq_mul] using this
  constructor
  · positivity
  · rw [div_mul_eq_mul_div, div_le_iff₀ hlen]
    nlinarith

theorem rne_nonneg {x : ℚ} (hx : 0 ≤ x) : 0 ≤ rne x := by
  have h0 : (0 : ℤ) ≤ ⌊x⌋ := Int.floor_nonneg.mpr hx
  show 0 ≤ (if x - (⌊x⌋ : ℚ) < 1 / 2 then ⌊x⌋
    else if 1 / 2 < x - (⌊x⌋ : ℚ) then ⌊x⌋ + 1
    else if ⌊x⌋ % 2 = 0 then ⌊x⌋ else ⌊x⌋ + 1)
  split
  · exact h0
  · split
    · omega
    · split <;> omega

theorem rne_le {x : ℚ} {B : ℤ} (hx : x ≤ (B : ℚ)) : rne x ≤ B := by
  have hf : ⌊x⌋ ≤ B := by
    calc ⌊x⌋ ≤ ⌊(B : ℚ)⌋ := Int.floor_le_floor hx
    _ = B := Int.floor_intCast B
  have key : (1 : ℚ) / 2 ≤ x - (⌊x⌋ : ℚ) → ⌊x⌋ + 1 ≤ B := by
    intro hh
    have hfl : ((⌊x⌋ : ℤ) : ℚ) + 1 / 2 ≤ (B : ℚ) := by linarith
    have hlt : ((⌊x⌋ : ℤ) : ℚ) < (B : ℚ) := by linarith
    have : ⌊x⌋ < B := by exact_mod_cast hlt
    omega
  show (if x - (⌊x⌋ : ℚ) < 1 / 2 then ⌊x⌋
    else if 1 / 2 < x - (⌊x⌋ : ℚ) then ⌊x⌋ + 1
    else if ⌊x⌋ % 2 = 0 then ⌊x⌋ else ⌊x⌋ + 1) ≤ B
  split
  · exact hf
  · split
    · rename_i hlt1 hlt2
      exact key (le_of_lt hlt2)
    · rename_i hlt1 hlt2
      have heq : x - (⌊x⌋ : ℚ) = 1 / 2 := le_antisymm (le_of_not_lt hlt2) (le_of_not_lt hlt1)
      split
      · exact hf
      · exact key (le_of_eq heq.symm)

set_option maxHeartbeats 2000000 in
theorem fdr_inv {req_dc : List DiamondEntry} {cfg : Config} {pdf : RawRec}
    {aff : Option AffRec} {res : EngineResult} {a b : RawRec}
    (h : fetch_data_round req_dc cfg pdf aff = .ok (res, a, b)) :
    a = pdf ∧
    ∀ out, res = .score out →
      out.scores.map Prod.fst = roundKeys ∧
      out.percent =
        (out.scores.map Prod.snd).sum / ((out.scores.length : ℚ) * 5) * 100 ∧
      out.digisation = renderRound2 out.percent ++ "%" ∧
      (CfgBounded cfg → ∀ p ∈ out.scores, ValB p.2) := by
  unfold fetch_data_round at h
  dsimp only at h
  split at h
  next =>
    simp only [Except.ok.injEq, Prod.mk.injEq] at h
    obtain ⟨hres, ha, -⟩ := h
    refine ⟨ha.symm ▸ rfl, ?_⟩
    intro out hout
    rw [← hres] at hout
    exact absurd hout (by simp)
  next => exact Except.noConfusion h
  next sh hsh =>
    split at h
    next e heq => exact Except.noConfusion h
    next rr hrr =>
      split at h
      next e heq => exact Except.noConfusion h
      next pdf1 gia hgb =>
        split at h
        next e heq => exact Except.noConfusion h
        next pdf2 carat hcar =>
          split at h
          next e heq => exact Except.noConfusion h
          next pdf3 phS hph =>
            split at h
            next e heq => exact Except.noConfusion h
            next pdf4 paS hpa =>
              split at h
              next e heq => exact Except.noConfusion h
              next pdf5 caS hca =>
                split at h
                next e heq => exact Except.noConfusion h
                next pdf6 tbS htb =>
                  split at h
                  next e heq => exact Except.noConfusion h
                  next pdf7 dpS hdp =>
                    split at h
                    next e heq => exact Except.noConfusion h
                    next pdf8 gdS hgd =>
                      split at h
                      next e heq => exact Except.noConfusion h
                      next poS hpo =>
                        split at h
                        next e heq => exact Except.noConfusion h
                        next syS hsy =>
                          split at h
                          next e heq => exact Except.noConfusion h
                          next cuS hcu =>
                            split at h
                            next e heq => exact Except.noConfusion h
                            next pdf9 flS hfl =>
                              split at h
                              next e heq => exact Except.noConfusion h
                              next pdf10 ksS hks =>
                                simp only [mkComposite, List.length_cons,
                                  List.length_nil] at h
                                norm_num at h
                                obtain ⟨hres, ha, -⟩ := h
                                refine ⟨ha.symm ▸ rfl, ?_⟩
                                intro out hout
                                rw [← hres] at hout
                                simp only [EngineResult.score.injEq] at hout
                                subst hout
                                refine ⟨by simp [roundKeys], by norm_num, rfl, ?_⟩
                                intro hcb p hp
                                obtain ⟨hG, hGH, hRS, hFl, hSym, hCul, hPav, hCrn⟩ := hcb
                                simp only [List.mem_cons, List.not_mem_nil,
                                  or_false] at hp
                                rcases hp with rfl | rfl | rfl | rfl | rfl | rfl |
                                  rfl | rfl | rfl | rfl | rfl | rfl | rfl
                                · exact culetBlockRound_bound hCul
                                · exact valB_of_cases measBlockRound_cases
                                · exact valB_of_cases (pavHeightBlock_cases hph)
                                · exact pavAngleBlock_bound hPav hpa
                                · exact crownAngleBlock_bound hCrn hca
                                · exact valB_of_cases (tableBlockRound_cases htb)
                                · exact valB_of_cases (depthBlockRound_cases hdp)
                                · exact girdleScoreRound_bound hG hgd
                                · exact polishScoreBlock_bound hRS hpo
                                · exact symmetryScoreBlock_bound hRS hsy
                                · exact cutScoreBlock_bound hRS hcu
                                · exact fluorBlockRound_bound hFl hfl
                                · exact symbolBlock_bound hSym hks

theorem mergeAffiliate_none {pdf : RawRec} : mergeAffiliate pdf none = pdf := rfl

theorem mergeAffiliateRound_none {pdf : RawRec} :
    mergeAffiliateRound pdf none = pdf := rfl

theorem classifyFancy_shape {sh0 sh : String} {t : List String}
    (h : classifyFancy sh0 = .ok (sh, t)) : sh = sh0 ∨ sh = "cushion" := by
  unfold classifyFancy at h
  dsimp only at h
  iterate 20 (all_goals (try split at h))
  all_goals
    first
    | exact Except.noConfusion h
    | (obtain ⟨a, ha, hfa⟩ := exceptMap_ok h
       simp only [Prod.mk.injEq] at hfa
       exact Or.inl hfa.1.symm)
    | (obtain ⟨a, ha, hfa⟩ := exceptMap_ok h
       simp only [Prod.mk.injEq] at hfa
       exact Or.inr hfa.1.symm)
    | (simp only [Except.ok.injEq, Prod.mk.injEq] at h
       exact Or.inl h.1.symm)

set_option maxHeartbeats 4000000 in
theorem fd_inv {req_dc : List DiamondEntry} {cfg : Config} {pdf : RawRec}
    {aff : Option AffRec} {res : EngineResult} {a b : RawRec}
    (h : fetch_data req_dc cfg pdf aff = .ok (res, a, b)) :
    (aff = none → a = pdf) ∧
    ∀ out, res = .score out →
      (out.scores.map Prod.fst = roundKeys ∨
       out.scores.map Prod.fst = fancyKeys8 ∨
       out.scores.map Prod.fst = fancyKeys9) ∧
      out.percent =
        (out.scores.map Prod.snd).sum / ((out.scores.length : ℚ) * 5) * 100 ∧
      out.digisation = renderRound2 out.percent ++ "%" ∧
      (CfgBounded cfg → ∀ p ∈ out.scores, ValB p.2) := by
  unfold fetch_data at h
  dsimp only at h
  split at h
  next =>
    simp only [Except.ok.injEq, Prod.mk.injEq] at h
    obtain ⟨hres, ha, -⟩ := h
    refine ⟨fun _ => ha.symm ▸ rfl, ?_⟩
    intro out hout
    rw [← hres] at hout
    exact absurd hout (by simp)
  next => exact Except.noConfusion h
  next sh0 hsh =>
    split at h
    next e heq => exact Except.noConfusion h
    next sh t hcls =>
      split at h
      next hrd =>
        obtain ⟨ha, hsc⟩ := fdr_inv h
        constructor
        · intro haff
          subst haff
          rw [mergeAffiliate_none] at ha hsh
          rcases classifyFancy_shape hcls with rfl | rfl
          · rw [ha, ← hsh]
          · exact absurd hrd (by decide)
        · intro out hout
          obtain ⟨hk, hp, hd, hb2⟩ := hsc out hout
          exact ⟨Or.inl hk, hp, hd, hb2⟩
      next hrd =>
        split at h
        next e heq => exact Except.noConfusion h
        next pdf1 lw hlw =>
          split at h
          next e heq => exact Except.noConfusion h
          next reqrng hreq =>
            split at h
            next e heq => exact Except.noConfusion h
            next pdf2 gia hgp =>
              split at h
              next e heq => exact Except.noConfusion h
              next pdf3 pv hpp =>
                split at h
                next e heq => exact Except.noConfusion h
                next pdf4 sv hsp =>
                  split at h
                  next e heq => exact Except.noConfusion h
                  next pdf5 hcf =>
                    split at h
                    next e heq => exact Except.noConfusion h
                    next pdf6 cuS hcu =>
                      split at h
                      next e heq => exact Except.noConfusion h
                      next pdf7 tbS htb =>
                        split at h
                        next e heq => exact Except.noConfusion h
                        next pdf8 dpS hdp =>
                          split at h
                          next e heq => exact Except.noConfusion h
                          next pdf9 hls =>
                            split at h
                            next e heq => exact Except.noConfusion h
                            next pdf10 gdS hgd =>
                              split at h
                              next e heq => exact Except.noConfusion h
                              next poS hpo =>
                                split at h
                                next e heq => exact Except.noConfusion h
                                next syS hsy =>
                                  split at h
                                  next e heq => exact Except.noConfusion h
                                  next pdf11 flS hfl =>
                                    split at h
                                    next e heq => exact Except.noConfusion h
                                    next pdf12 ksS hks =>
                                      split at h
                                      next v hlwr =>
                                        simp only [mkComposite, List.cons_append,
                                          List.nil_append, List.length_cons,
                                          List.length_nil] at h
                                        norm_num at h
                                        obtain ⟨hres, ha, -⟩ := h
                                        refine ⟨fun _ => ha.symm ▸ rfl, ?_⟩
                                        intro out hout
                                        rw [← hres] at hout
                                        simp only [EngineResult.score.injEq] at hout
                                        subst hout
                                        refine ⟨Or.inr (Or.inr (by simp [fancyKeys9])),
                                          by norm_num, rfl, ?_⟩
                                        intro hcb p hp
                                        obtain ⟨hG, hGH, hRS, hFl, hSym, hCul, hPav, hCrn⟩ := hcb
                                        simp only [List.mem_cons, List.not_mem_nil,
                                          or_false] at hp
                                        rcases hp with rfl | rfl | rfl | rfl | rfl |
                                          rfl | rfl | rfl | rfl
                                        · exact culetBlockFancy_bound hCul hcu
                                        · exact valB_of_cases (lwrScoreBlock_cases hlwr)
                                        · exact valB_of_cases (tableBlockFancy_cases htb)
                                        · exact valB_of_cases (depthBlockFancy_cases hdp)
                                        · exact girdleScoreFancy_bound hG hGH hgd
                                        · exact polishScoreBlock_bound hRS hpo
                                        · exact symmetryScoreBlock_bound hRS hsy
                                        · exact fluorBlockFancy_bound hFl hfl
                                        · exact symbolBlockFancy_bound hSym hks
                                      next hlwr =>
                                        simp only [mkComposite, List.nil_append,
                                          List.length_cons, List.length_nil] at h
                                        norm_num at h
                                        obtain ⟨hres, ha, -⟩ := h
                                        refine ⟨fun _ => ha.symm ▸ rfl, ?_⟩
                                        intro out hout
                                        rw [← hres] at hout
                                        simp only [EngineResult.score.injEq] at hout
                                        subst hout
                                        refine ⟨Or.inr (Or.inl (by simp [fancyKeys8])),
                                          by norm_num, rfl, ?_⟩
                                        intro hcb p hp
                                        obtain ⟨hG, hGH, hRS, hFl, hSym, hCul, hPav, hCrn⟩ := hcb
                                        simp only [List.mem_cons, List.not_mem_nil,
                                          or_false] at hp
                                        rcases hp with rfl | rfl | rfl | rfl |
                                          rfl | rfl | rfl | rfl
                                        · exact culetBlockFancy_bound hCul hcu
                                        · exact valB_of_cases (tableBlockFancy_cases htb)
                                        · exact valB_of_cases (depthBlockFancy_cases hdp)
                                        · exact girdleScoreFancy_bound hG hGH hgd
                                        · exact polishScoreBlock_bound hRS hpo
                                        · exact symmetryScoreBlock_bound hRS hsy
                                        · exact fluorBlockFancy_bound hFl hfl
                                        · exact symbolBlockFancy_bound hSym hks


/-! ## Helper lemmas for the claim theorems -/

theorem foldl_min_choice (l : List ℚ) : ∀ x : ℚ,
    l.foldl min x = x ∨ l.foldl min x ∈ l := by
  induction l with
  | nil => intro x; exact Or.inl rfl
  | cons y ys ih =>
    intro x
    rcases ih (min x y) with h | h
    · rcases min_choice x y with hm | hm
      · exact Or.inl (by rw [List.foldl_cons, h, hm])
      · refine Or.inr ?_
        rw [List.foldl_cons, h, hm]
        exact List.mem_cons_self _ _
    · exact Or.inr (List.mem_cons_of_mem _ h)

theorem minListD_choice (l : List ℚ) (d : ℚ) :
    minListD l d = d ∨ minListD l d ∈ l := by
  cases l with
  | nil => exact Or.inl rfl
  | cons x rest =>
    rcases foldl_min_choice rest x with h | h
    · refine Or.inr ?_
      show rest.foldl min x ∈ x :: rest
      rw [h]
      exact List.mem_cons_self _ _
    · exact Or.inr (List.mem_cons_of_mem _ h)

theorem amvLoop_spec (v c : ℚ) (rows : List WeightRow) (acc : ℚ)
    (hp : ∀ r ∈ rows, (parseWeight r.weight).isSome) :
    amvLoop v c rows acc =
      .ok (if rows.any (bucketHit v c) then 5
        else if !rows.isEmpty && (decide (2 ≤ c) && decide (8 ≤ v)) then 5
        else acc) := by
  induction rows generalizing acc with
  | nil => simp [amvLoop]
  | cons r rest ih =>
    have hr : (parseWeight r.weight).isSome = true := hp r (List.mem_cons_self _ _)
    have hp2 : ∀ x ∈ rest, (parseWeight x.weight).isSome :=
      fun x hx => hp x (List.mem_cons_of_mem _ hx)
    cases h1 : pyFloat ((pySplit r.weight "-").getD 0 "") with
    | none =>
      exfalso
      unfold parseWeight at hr
      dsimp only at hr
      rw [h1] at hr
      simp at hr
    | some lo =>
      cases h2 : (pySplit r.weight "-").get? 1 with
      | none =>
        exfalso
        unfold parseWeight at hr
        dsimp only at hr
        rw [h1, h2] at hr
        simp at hr
      | some hiS =>
        cases h3 : pyFloat hiS with
        | none =>
          exfalso
          unfold parseWeight at hr
          dsimp only at hr
          rw [h1, h2] at hr
          dsimp only at hr
          rw [h3] at hr
          simp at hr
        | some hi =>
          have hbh : bucketHit v c r =
              (decide (lo ≤ c) && decide (c ≤ hi) && decide (r.value ≤ v)) := by
            unfold bucketHit parseWeight
            dsimp only
            rw [h1, h2]
            dsimp only
            rw [h3]
            rfl
          unfold amvLoop
          dsimp only
          rw [h1]
          dsimp only
          rw [h2]
          dsimp only
          rw [h3]
          dsimp only
          rw [← hbh, ih _ hp2, List.any_cons]
          cases hb : bucketHit v c r <;>
            cases ha : rest.any (bucketHit v c) <;>
              cases hie : rest.isEmpty <;>
                cases h2c : decide (2 ≤ c) <;>
                  cases h8c : decide (8 ≤ v) <;>
                    simp [hb, ha, hie, h2c, h8c]

/-! ## The claims -/

unseal Rat.mul Rat.add Rat.sub Rat.inv in
/-- Claim C1, counterexample: the spec scenario record with shape text
`"Unidentifiable Blob"` (matching no classification rule) does not make the
engine return the `{"Status": ...}` failure value — `fetch_data` scores it
fully (eight fancy attributes, 12.5%). -/
theorem C1_counterexample :
    fetch_data reqs0 cfg0 rec1 none = .ok (.score out1, rec1, rec1F) ∧
    isScore (EngineResult.score out1) = true :=
  ⟨by decide, rfl⟩

/-- Claim C1, amended: the `{"Status": "can't find shape from data"}`
failure value is produced when the merged record has no `shape` key at all;
both engine paths then return it with no score record and with the merged
record as the third component. -/
theorem C1_claim (req_dc : List DiamondEntry) (cfg : Config) (pdf : RawRec)
    (aff : Option AffRec) :
    ((mergeAffiliate pdf aff).shape = Fld.absent →
      fetch_data req_dc cfg pdf aff =
        .ok (.statusFail, pdf, mergeAffiliate pdf aff)) ∧
    ((mergeAffiliateRound pdf aff).shape = Fld.absent →
      fetch_data_round req_dc cfg pdf aff =
        .ok (.statusFail, pdf, mergeAffiliateRound pdf aff)) := by
  constructor
  · intro h
    unfold fetch_data
    dsimp only
    rw [h]
  · intro h
    unfold fetch_data_round
    dsimp only
    rw [h]

/-- Claim C1, witness: the record with no `shape` key makes both paths
return the status-failure value. -/
theorem C1_claim_witness :
    fetch_data reqs0 cfg0 recNoShape none =
      .ok (.statusFail, recNoShape, recNoShape) ∧
    fetch_data_round reqs0 cfg0 recNoShape none =
      .ok (.statusFail, recNoShape, recNoShape) :=
  ⟨(C1_claim reqs0 cfg0 recNoShape none).1 rfl,
   (C1_claim reqs0 cfg0 recNoShape none).2 rfl⟩

unseal Rat.mul Rat.add Rat.sub Rat.inv in
/-- Claim C2, counterexample: for the pear record whose measurement `"abc"`
makes the ratio computation fail (`lw_ratio` ends `'ND'`), the key
`length_width_ratio_score` is nevertheless present in the tally, scored 0
and counted in the denominator (nine keys, 100/9 %). -/
theorem C2_counterexample :
    (lwCompute "abc").1 = LwVal.nd ∧
    fetch_data reqs0 cfg0 rec2 none = .ok (.score out2, rec2, rec2F) ∧
    out2.scores.lookup "length_width_ratio_score" = some 0 :=
  ⟨rfl, by decide, rfl⟩

/-- Claim C2, amended: presence of the `length_width_ratio_score` key is
governed by the availability of the configured ratio range, not by the
success of the ratio computation: the key is omitted exactly when the
requirement lookup bound `ratio` to `None`, and whenever a range is
available but the ratio computation failed (`'ND'` or unbound), the key is
present with score 0. -/
theorem C2_claim (rng : Option (Option (List String))) (lw : LwVal) :
    (lwrScoreBlock rng lw = none ↔ rng = some none) ∧
    (∀ parts, rng = some (some parts) →
      lw = LwVal.nd ∨ lw = LwVal.unbound → lwrScoreBlock rng lw = some 0) := by
  constructor
  · constructor
    · intro h
      cases rng with
      | none => exact Option.noConfusion h
      | some o =>
        cases o with
        | none => rfl
        | some parts =>
          exfalso
          unfold lwrScoreBlock at h
          dsimp only at h
          cases lw with
          | nd => exact Option.noConfusion h
          | unbound => exact Option.noConfusion h
          | val x =>
            iterate 6 (all_goals (try split at h))
            all_goals exact Option.noConfusion h
    · rintro rfl
      rfl
  · rintro parts rfl (rfl | rfl) <;> rfl

/-- Claim C2, witness: with the pear range `1.45-1.75` available and the
ratio failed, the key is present with score 0. -/
theorem C2_claim_witness :
    lwrScoreBlock (some (some ["1.45", "1.75"])) LwVal.nd = some 0 :=
  (C2_claim (some (some ["1.45", "1.75"])) LwVal.nd).2 ["1.45", "1.75"] rfl
    (Or.inl rfl)

/-- Claim C3, evidence of the code bug: a round record whose
`pavilion_height` text holds no two-digit match of `pattern_digi` makes
`re.findall(...)[0]` (line 1295) raise an uncaught `IndexError`, so the
whole record aborts with no composite score, against the spec's recover-to-0
policy. -/
theorem C3_evidence :
    fetch_data_round reqs0 cfg0 rec3 none = .error .indexError ∧
    findDigi "abc" = none :=
  ⟨rfl, rfl⟩

/-- Claim C4: every score record the round path produces tallies exactly the
13 fixed attribute keys, in order, however sparse the input record was. -/
theorem C4_claim (req_dc : List DiamondEntry) (cfg : Config) (pdf : RawRec)
    (aff : Option AffRec) (out : ScoreOut) (a b : RawRec)
    (h : fetch_data_round req_dc cfg pdf aff = .ok (.score out, a, b)) :
    out.scores.map Prod.fst = roundKeys ∧ out.scores.length = 13 := by
  obtain ⟨-, hsc⟩ := fdr_inv h
  obtain ⟨hk, -, -, -⟩ := hsc out rfl
  refine ⟨hk, ?_⟩
  have hlen := congrArg List.length hk
  simpa [roundKeys] using hlen

unseal Rat.mul Rat.add Rat.sub Rat.inv in
/-- Claim C4, witness: the fully populated round record scores with exactly
the 13 keys. -/
theorem C4_claim_witness :
    out4.scores.map Prod.fst = roundKeys ∧ out4.scores.length = 13 :=
  C4_claim reqs0 cfg0 rec4 none out4 rec4 recF4 (by decide)

/-- Claim C5, counterexample: the token `Growth Remnant` uppercases to the
configured row name `GROWTH REMNANT` (configured score 1), yet
`check_symbol` returns the default 5: line 231 folds the input to
`GROWTHREMNANT` before tokenising and no lookup ever undoes that folding,
so the configured score is unreachable and the result is not the minimum
over recognised tokens. -/
theorem C5_counterexample :
    pyUpper "Growth Remnant" = "GROWTH REMNANT" ∧
    symTbl5.find? (fun r => r.data_type = pyUpper "Growth Remnant") =
      some ⟨"GROWTH REMNANT", [1]⟩ ∧
    check_symbol "Growth Remnant" symTbl5 = .ok 5 ∧
    (5 : ℚ) ≠ 1 :=
  ⟨rfl, rfl, rfl, by norm_num⟩

/-- Claim C5, amended: whatever `check_symbol` returns without an exception
is either the default 5 (no token recognised after the multi-word folding)
or one of the configured scores of some table row; tokens whose folded
spelling matches no table row are ignored. -/
theorem C5_claim (raw : String) (tbl : List SymRow) (s : ℚ)
    (h : check_symbol raw tbl = .ok s) :
    s = 5 ∨ ∃ r ∈ tbl, s ∈ r.tcValues := by
  unfold check_symbol at h
  dsimp only at h
  iterate 6 (all_goals (try split at h))
  all_goals
    first
    | exact Except.noConfusion h
    | (simp only [Except.ok.injEq] at h
       subst h
       first
       | exact Or.inl rfl
       | exact Or.inr ⟨_, List.mem_of_find?_eq_some (by assumption),
           List.get?_mem (by assumption)⟩
       | (rcases minListD_choice _ 5 with hm | hm
          · exact Or.inl hm
          · obtain ⟨r, hr, hv⟩ := symLoop_mem (by assumption) _ hm
            exact Or.inr ⟨r, hr, hv⟩))

/-- Claim C5, witness: two recognised single-word tokens, the score is a
configured value (the minimum, 2). -/
theorem C5_claim_witness :
    (2 : ℚ) = 5 ∨ ∃ r ∈ cfg0.keysToSymbols, (2 : ℚ) ∈ r.tcValues :=
  C5_claim "Cloud, Feather" cfg0.keysToSymbols 2 (by rfl)

/-- Claim C6, counterexample: merging an override whose every field is the
sentinel spelling `"none"` is not the identity merge — the `shape` filter
(lines 326-328) does not list `"none"`, so the override leaks into the
working record's shape. -/
theorem C6_counterexample :
    mergeAffiliate rec2 (some affAllNoneStr) ≠ mergeAffiliate rec2 none ∧
    (mergeAffiliate rec2 (some affAllNoneStr)).shape = Fld.str "none" :=
  ⟨by decide, rfl⟩

/-- Claim C6, amended: the merge ignores an override field only when that
field fails its own hand-written sentinel filter (the lists differ per
field); an override every field of which is invalid per its own filter
leaves the working record exactly as the no-override merge, in both paths. -/
theorem C6_claim (pdf : RawRec) (a : AffRec) (h : AffIneffective a) :
    mergeAffiliate pdf (some a) = mergeAffiliate pdf none ∧
    mergeAffiliateRound pdf (some a) = mergeAffiliateRound pdf none := by
  obtain ⟨h1, h2, h3, h4, h5, h6, h7, h8, h9, h10, h11, h12, h13, h14, h15,
    h16⟩ := h
  constructor
  · unfold mergeAffiliate
    dsimp only
    rw [updIf_invalid h1, updIf_invalid h2, updIf_invalid h3,
      updIf_invalid h4, updIf_invalid h5, updIf_invalid h6, updIf_invalid h7,
      updIf_invalid h8, updIf_invalid h9, updIf_invalid h10,
      updIf_invalid h11, updIf_invalid h12]
  · unfold mergeAffiliateRound
    dsimp only
    rw [updIf_invalid h1, updIf_invalid h2, updIf_invalid h3,
      updIf_invalid h4, updIf_invalid h5, updIf_invalid h6, updIf_invalid h7,
      updIf_invalid h8, updIf_invalid h9, updIf_invalid h10,
      updIf_invalid h11, updIf_invalid h12, updIf_invalid h13,
      updIf_invalid h14, updIf_invalid h15, updIf_invalid h16]

/-- Claim C6, witness: an override whose every field is Python `None` is
rejected by every filter and both merges collapse to the raw-only merge. -/
theorem C6_claim_witness :
    mergeAffiliate rec2 (some affAllNull) = mergeAffiliate rec2 none ∧
    mergeAffiliateRound rec4 (some affAllNull) = mergeAffiliateRound rec4 none :=
  ⟨(C6_claim rec2 affAllNull (by decide)).1,
   (C6_claim rec4 affAllNull (by decide)).2⟩

/-- Claim C7: under score-bounded configuration tables, every score record
either engine path produces has its exact composite percentage in [0, 100],
and `digisation_score` is rendered as that percentage rounded to two decimal
places with a trailing `%`. -/
theorem C7_claim (req_dc : List DiamondEntry) (cfg : Config) (pdf : RawRec)
    (aff : Option AffRec) (res : EngineResult) (a b : RawRec) (out : ScoreOut)
    (hcb : CfgBounded cfg)
    (h : fetch_data req_dc cfg pdf aff = .ok (res, a, b) ∨
      fetch_data_round req_dc cfg pdf aff = .ok (res, a, b))
    (hres : res = .score out) :
    0 ≤ out.percent ∧ out.percent ≤ 100 ∧
      out.digisation = renderRound2 out.percent ++ "%" := by
  rcases h with h | h
  · obtain ⟨-, hsc⟩ := fd_inv h
    obtain ⟨hk, hp, hd, hb⟩ := hsc out hres
    have hne : out.scores ≠ [] := by
      intro hnil
      rcases hk with hk | hk | hk <;> rw [hnil] at hk <;>
        exact absurd hk (by decide)
    obtain ⟨h0, h100⟩ := composite_percent_bound (hb hcb) hne
    refine ⟨?_, ?_, hd⟩
    · rw [hp]; exact h0
    · rw [hp]; exact h100
  · obtain ⟨-, hsc⟩ := fdr_inv h
    obtain ⟨hk, hp, hd, hb⟩ := hsc out hres
    have hne : out.scores ≠ [] := by
      intro hnil
      rw [hnil] at hk
      exact absurd hk (by decide)
    obtain ⟨h0, h100⟩ := composite_percent_bound (hb hcb) hne
    refine ⟨?_, ?_, hd⟩
    · rw [hp]; exact h0
    · rw [hp]; exact h100

unseal Rat.mul Rat.add Rat.sub Rat.inv in
/-- Claim C7, witness: at the fully populated round record, the percentage
is 100 and the rendering is `"100.0%"`. -/
theorem C7_claim_witness :
    0 ≤ out4.percent ∧ out4.percent ≤ 100 ∧
      out4.digisation = renderRound2 out4.percent ++ "%" :=
  C7_claim reqs0 cfg0 rec4 none (.score out4) rec4 recF4 out4 (by decide)
    (Or.inr (by decide)) rfl

unseal Rat.mul Rat.add Rat.sub Rat.inv in
/-- Claim C8, counterexample: the `carat >= 2.0 and value >= 8` override
sits inside the row loop, so with an empty measurement table a 2.5-carat
stone of diameter 9 scores 0 while the claimed semantics give 5. -/
theorem C8_counterexample :
    assign_measurement_value 9 (5 / 2) [] = .ok 0 ∧
    measSpecScore 9 (5 / 2) [] = 5 ∧
    (2 : ℚ) ≤ 5 / 2 ∧ (8 : ℚ) ≤ 9 :=
  ⟨rfl, by decide, by decide, by decide⟩

/-- Claim C8, amended: on a non-empty measurement table whose every weight
range parses, `assign_measurement_value` returns exactly the claimed
bucket-or-override score: 5 when some bucket is hit or when
`carat ≥ 2.0` and `diameter ≥ 8`, else 0. -/
theorem C8_claim (v c : ℚ) (rows : List WeightRow) (hne : rows ≠ [])
    (hp : ∀ r ∈ rows, (parseWeight r.weight).isSome) :
    assign_measurement_value v c rows = .ok (measSpecScore v c rows) := by
  unfold assign_measurement_value measSpecScore
  rw [amvLoop_spec v c rows 0 hp]
  have hie : rows.isEmpty = false := by
    cases rows with
    | nil => exact absurd rfl hne
    | cons r rest => rfl
  rw [hie]
  cases hany : rows.any (bucketHit v c) <;>
    cases h2 : decide (2 ≤ c) <;> cases h8 : decide (8 ≤ v) <;> simp

unseal Rat.mul Rat.add Rat.sub Rat.inv in
/-- Claim C8, witness: on the fixture table (all ranges parse), the code and
the claimed semantics agree at diameter 9, carat 2.25. -/
theorem C8_claim_witness :
    assign_measurement_value 9 (9 / 4) cfg0.measurement =
      .ok (measSpecScore 9 (9 / 4) cfg0.measurement) :=
  C8_claim 9 (9 / 4) cfg0.measurement (by decide) (by decide)

unseal Rat.mul Rat.add Rat.sub Rat.inv in
/-- Claim C9, counterexample: the caller's record is mutated in place — the
third component of the returned triple is the caller's dict after scoring
and differs from the record at entry (the measurement was overwritten with
`'ND'`, the unscored keys were filled), while the second component is the
pre-merge snapshot. -/
theorem C9_counterexample :
    fetch_data reqs0 cfg0 rec2 none = .ok (.score out2, rec2, rec2F) ∧
    rec2F ≠ rec2 ∧ rec2F.measurement ≠ rec2.measurement :=
  ⟨by decide, by decide, by decide⟩

/-- Claim C9, amended: the second component of the returned triple is the
record exactly as it was at entry (`fetch_data_round` for any override,
`fetch_data` with no override); the caller's record itself is the mutated
third component. -/
theorem C9_claim (req_dc : List DiamondEntry) (cfg : Config) (pdf : RawRec)
    (aff : Option AffRec) (res : EngineResult) (a b : RawRec) :
    (fetch_data_round req_dc cfg pdf aff = .ok (res, a, b) → a = pdf) ∧
    (fetch_data req_dc cfg pdf none = .ok (res, a, b) → a = pdf) :=
  ⟨fun h => (fdr_inv h).1, fun h => (fd_inv h).1 rfl⟩

unseal Rat.mul Rat.add Rat.sub Rat.inv in
/-- Claim C9, witness: at the two concrete runs the second component is the
entry record. -/
theorem C9_claim_witness : rec4 = rec4 ∧ rec2 = rec2 :=
  ⟨(C9_claim reqs0 cfg0 rec4 none (.score out4) rec4 recF4).1 (by decide),
   (C9_claim reqs0 cfg0 rec2 none (.score out2) rec2 rec2F).2 (by decide)⟩

/-- Claim C10: whenever the fancy path of `fetch_data` reaches the composite
computation, the tally contains at least the eight unconditionally assigned
keys, so the denominator `5 * count` is strictly positive and the division
never divides by zero. -/
theorem C10_claim (req_dc : List DiamondEntry) (cfg : Config) (pdf : RawRec)
    (aff : Option AffRec) (out : ScoreOut) (a b : RawRec)
    (h : fetch_data req_dc cfg pdf aff = .ok (.score out, a, b)) :
    (∀ k ∈ fancyKeys8, k ∈ out.scores.map Prod.fst) ∧ 0 < out.scores.length := by
  obtain ⟨-, hsc⟩ := fd_inv h
  obtain ⟨hk, -, -, -⟩ := hsc out rfl
  have hlen : (out.scores.map Prod.fst).length = out.scores.length :=
    List.length_map _ _
  constructor
  · intro k hkm
    simp only [fancyKeys8, List.mem_cons, List.not_mem_nil, or_false] at hkm
    rcases hk with hk | hk | hk <;> rw [hk] <;>
      rcases hkm with rfl | rfl | rfl | rfl | rfl | rfl | rfl | rfl <;> decide
  · rcases hk with hk | hk | hk <;> rw [← hlen, hk] <;> decide

unseal Rat.mul Rat.add Rat.sub Rat.inv in
/-- Claim C10, witness: the sparse unmatched-shape record reaches the
composite with the eight unconditional keys. -/
theorem C10_claim_witness :
    (∀ k ∈ fancyKeys8, k ∈ out1.scores.map Prod.fst) ∧ 0 < out1.scores.length :=
  C10_claim reqs0 cfg0 rec1 none out1 rec1 rec1F (by decide)

end YDG
